import Mathlib

/-!
Crypto_View: the live-update and derived-metrics core of `src/app.js`

A shallow embedding of the dashboard's state and of the functions that read and
write it, followed by theorems about them.

Conventions of the embedding

* JavaScript numbers are exact rationals (`ℚ`).  The one place where the code can
  produce `NaN` from well-typed input (`usd * (undefined / 100)` in the polling
  loop) is the field `priceChange24h`, which is therefore an `Option ℚ` with
  `none` standing for `NaN`.
* `null` and `undefined` are both `none`.
* The global `state` object is the structure `State`, passed explicitly.
* `Date.now()` and the formatted clock string of `addAlert` are read from a
  `Clock` handed to each handler; a handler runs to completion on one reading.
* The page is taken to contain every element the code looks up
  (`getElementById` never returns `null`); what the code writes into the page
  is recorded in `State.view`.
* `state.priceData` is an object keyed by ticker symbols; its own-property order
  for such keys is insertion order, so it is a list of pairs in insertion order.
* A lookup in an object literal (`mapping[id]`) finds the literal's own
  properties; ids are asset ids, not names of members of `Object.prototype`.
-/

namespace CryptoView

/-! ## Data model -/

/-- One entry of `state.alerts`: `{ message, type, time }`. -/
structure AlertEntry where
  message : String
  type : String
  time : String
deriving DecidableEq, Repr

/-- One value of `state.priceData`. -/
structure PriceRecord where
  price : ℚ
  high24h : ℚ
  low24h : ℚ
  volume24h : ℚ
  priceChange24h : Option ℚ
  priceChangePercent24h : ℚ
  lastUpdate : Nat
deriving DecidableEq, Repr

/-- The clock readings a handler makes: `Date.now()` and the `HH:MM` string. -/
structure Clock where
  now : Nat
  timeStr : String
deriving DecidableEq, Repr

/-- The arrow shown next to the price: `↗` / `↘` / `→`
(classes `positive` / `negative` / `neutral`). -/
inductive Arrow where
  | up
  | down
  | neutral
deriving DecidableEq, Repr

/-- The colour class put on an element: `positive` or `negative`. -/
inductive Tone where
  | positive
  | negative
deriving DecidableEq, Repr

/-- The risk level text written by `updateRiskIndicators`. -/
inductive Level where
  | Low
  | Medium
  | High
deriving DecidableEq, Repr

/-- What `updateMarketMicrostructure` writes. -/
structure Microstructure where
  ofi : ℚ
  ofiBarWidth : ℚ
  ofiBarTone : Tone
  volumeSlope : ℚ
  volumeSlopeBarWidth : ℚ
  volumeSlopeBarTone : Tone
  bidAsk : ℚ
  bidAskBarWidth : ℚ
deriving DecidableEq, Repr

/-- What `updateVolatilityMetrics` writes. -/
structure VolatilityMetrics where
  vol1h : ℚ
  vol1hGauge : ℚ
  vol4h : ℚ
  vol4hGauge : ℚ
  volatility24h : ℚ
  vol24hGauge : ℚ
deriving DecidableEq, Repr

/-- What `updateRiskIndicators` writes. -/
structure RiskIndicators where
  riskLevel : Level
  riskScore : Nat
  liquidityLevel : Level
  liquidityScore : ℚ
deriving DecidableEq, Repr

/-- What one run of `updatePriceDisplay` writes, together with the argument
`previousPrice` it was called with. -/
structure PriceView where
  previousPrice : Option ℚ
  symbol : String
  rawPrice : ℚ
  arrow : Arrow
  priceTone : Option Tone
  changeTone : Tone
  micro : Microstructure
  vola : VolatilityMetrics
  risk : RiskIndicators
  footerTone : Option Tone
deriving DecidableEq, Repr

/-- One row of the top-movers panel: `{ symbol, change }`. -/
structure Mover where
  symbol : String
  change : ℚ
deriving DecidableEq, Repr

/-- The anomaly classes of `detectAnomalies`. -/
inductive AnomalyKind where
  | warning
  | info
deriving DecidableEq, Repr

/-- The single item `detectAnomalies` puts into the anomaly container. -/
structure Anomaly where
  kind : AnomalyKind
  symbol : String
  change : ℚ
deriving DecidableEq, Repr

/-- The parts of the page the modelled functions write. -/
structure View where
  price : Option PriceView
  movers : List Mover
  anomaly : Option Anomaly
deriving DecidableEq, Repr

/-- A ticker payload of the stream (`data.data`), numeric strings already read
by `parseFloat`. -/
structure Ticker where
  s : String
  c : ℚ
  h : ℚ
  l : ℚ
  v : ℚ
  p : ℚ
  P : ℚ
deriving DecidableEq, Repr

/-- One asset object of the polled body: `usd` and the optional 24h fields. -/
structure Snapshot where
  usd : ℚ
  usd_24h_high : Option ℚ
  usd_24h_low : Option ℚ
  usd_24h_vol : Option ℚ
  usd_24h_change : Option ℚ
deriving DecidableEq, Repr

/-- The global `state` object (fields the core reads or writes) and the page. -/
structure State where
  currentSymbol : String
  currentName : String
  currentIcon : String
  priceData : List (String × PriceRecord)
  dataPointsCount : Nat
  lastUpdateTime : Nat
  alerts : List AlertEntry
  lastLivePrice : Option ℚ
  view : View
deriving DecidableEq, Repr

/-- The initial `state` literal, at start time `t0`. -/
def initialState (t0 : Nat) : State :=
  { currentSymbol := "BTC"
    currentName := "Bitcoin"
    currentIcon := "₿"
    priceData := []
    dataPointsCount := 0
    lastUpdateTime := t0
    alerts := []
    lastLivePrice := none
    view := { price := none, movers := [], anomaly := none } }

/-! ## AlertLog -/

/-- `addAlert(message, type)`: `unshift` the new entry, then `pop` when the
length exceeds 10. -/
def addAlert (s : State) (message type timeStr : String) : State :=
  let unshifted := { message := message, type := type, time := timeStr } :: s.alerts
  { s with alerts := if unshifted.length > 10 then unshifted.dropLast else unshifted }

/-- A run of `addAlert` calls, one per entry of `es`, in list order. -/
def addAlerts (s : State) (es : List AlertEntry) : State :=
  es.foldl (fun st e => addAlert st e.message e.type e.time) s

/-! ## PriceStore -/

/-- Reading `state.priceData[symbol]`. -/
def getRecord (store : List (String × PriceRecord)) (symbol : String) : Option PriceRecord :=
  match store with
  | [] => none
  | (k, v) :: rest => if k = symbol then some v else getRecord rest symbol

/-- The assignment `state.priceData[symbol] = record`: an existing property keeps
its place and gets the new value, a new property is added last. -/
def setRecord (store : List (String × PriceRecord)) (symbol : String) (record : PriceRecord) :
    List (String × PriceRecord) :=
  match store with
  | [] => [(symbol, record)]
  | (k, v) :: rest =>
    if k = symbol then (k, record) :: rest else (k, v) :: setRecord rest symbol record

/-! ## JavaScript helpers -/

/-- The operator `a || b` on numbers: `b` when `a` is falsy (zero), else `a`. -/
def jsOr (a b : ℚ) : ℚ := if a = 0 then b else a

/-- The operator `a || b` when `a` may be `undefined`. -/
def jsOrOpt (a : Option ℚ) (b : ℚ) : ℚ :=
  match a with
  | some x => jsOr x b
  | none => b

/-- Removing the first occurrence of `pat` from a character list. -/
def removeFirst (pat : List Char) : List Char → List Char
  | [] => []
  | c :: cs =>
    if pat.isPrefixOf (c :: cs) then (c :: cs).drop pat.length else c :: removeFirst pat cs

/-- The call `data.s.replace('USDT', '')`: the first occurrence is removed. -/
def stripQuote (s : String) : String :=
  String.mk (removeFirst "USDT".toList s.toList)

/-! ## DerivedMetricsEngine -/

/-- The local `priceRange`: `data.high24h - data.low24h || 1`. -/
def priceRange (data : PriceRecord) : ℚ := jsOr (data.high24h - data.low24h) 1

/-- The local `pricePosition`: `(data.price - data.low24h) / priceRange`. -/
def pricePosition (data : PriceRecord) : ℚ := (data.price - data.low24h) / priceRange data

/-- The local `ofi`: `(pricePosition - 0.5) * 100`. -/
def ofi (data : PriceRecord) : ℚ := (pricePosition data - 1 / 2) * 100

/-- The local `bidAsk`: `pricePosition * 100`. -/
def bidAsk (data : PriceRecord) : ℚ := pricePosition data * 100

/-- Colour of a signed bar: `x >= 0 ? success : error`. -/
def toneOf (x : ℚ) : Tone := if x ≥ 0 then Tone.positive else Tone.negative

/-- `updateMarketMicrostructure(data)`. -/
def updateMarketMicrostructure (data : PriceRecord) : Microstructure :=
  let volumeSlope := data.priceChangePercent24h * 2
  { ofi := ofi data
    ofiBarWidth := |ofi data|
    ofiBarTone := toneOf (ofi data)
    volumeSlope := volumeSlope
    volumeSlopeBarWidth := min |volumeSlope| 100
    volumeSlopeBarTone := toneOf volumeSlope
    bidAsk := bidAsk data
    bidAskBarWidth := max 0 (min (bidAsk data) 100) }

/-- The local `avgPrice`: `(data.high24h + data.low24h) / 2 || data.price || 1`. -/
def avgPrice (data : PriceRecord) : ℚ :=
  jsOr (jsOr ((data.high24h + data.low24h) / 2) data.price) 1

/-- The local `volatility24h`: `(priceRange / avgPrice) * 100`. -/
def volatility24h (data : PriceRecord) : ℚ := (priceRange data / avgPrice data) * 100

/-- `updateVolatilityMetrics(data)`. -/
def updateVolatilityMetrics (data : PriceRecord) : VolatilityMetrics :=
  let vol1h := volatility24h data / 24
  let vol4h := volatility24h data / 6
  { vol1h := vol1h
    vol1hGauge := min (vol1h * 10) 100
    vol4h := vol4h
    vol4hGauge := min (vol4h * 10) 100
    volatility24h := volatility24h data
    vol24hGauge := min (volatility24h data * 10) 100 }

/-- The denominator of the risk volatility: `data.price || 1`. -/
def riskDenominator (data : PriceRecord) : ℚ := jsOr data.price 1

/-- The local `volatility` of `updateRiskIndicators`:
`((data.high24h - data.low24h) / (data.price || 1)) * 100`. -/
def riskVolatility (data : PriceRecord) : ℚ :=
  ((data.high24h - data.low24h) / riskDenominator data) * 100

/-- The `if (volatility < 3) ... else if (volatility < 7) ... else ...` chain:
the level and the score it assigns. -/
def classifyRisk (volatility : ℚ) : Level × Nat :=
  if volatility < 3 then (Level.Low, 25)
  else if volatility < 7 then (Level.Medium, 50)
  else (Level.High, 75)

/-- The local `liquidityScore`: `Math.min((data.volume24h / 1000000) * 10, 100)`. -/
def liquidityScore (data : PriceRecord) : ℚ := min ((data.volume24h / 1000000) * 10) 100

/-- The liquidity chain: `> 70` High, `> 40` Medium, else Low. -/
def classifyLiquidity (score : ℚ) : Level :=
  if score > 70 then Level.High
  else if score > 40 then Level.Medium
  else Level.Low

/-- `updateRiskIndicators(data)`. -/
def updateRiskIndicators (data : PriceRecord) : RiskIndicators :=
  { riskLevel := (classifyRisk (riskVolatility data)).1
    riskScore := (classifyRisk (riskVolatility data)).2
    liquidityLevel := classifyLiquidity (liquidityScore data)
    liquidityScore := liquidityScore data }

/-! ## Price display and tick direction -/

/-- The arrow and the colour of the price that `updatePriceDisplay` sets from
`rawPrice`, the argument `previousPrice` and the 24h percent change. -/
def tickDirection (rawPrice : ℚ) (previousPrice : Option ℚ) (changePercent : ℚ) :
    Arrow × Option Tone :=
  match previousPrice with
  | some previous =>
    if rawPrice > previous then (Arrow.up, some Tone.positive)
    else if rawPrice < previous then (Arrow.down, some Tone.negative)
    else (Arrow.neutral, none)
  | none =>
    (Arrow.neutral,
      if changePercent > 0 then some Tone.positive
      else if changePercent < 0 then some Tone.negative
      else none)

/-- The colour of the footer price: green / red on a tick movement, else none. -/
def footerTone (price : ℚ) (previousPrice : Option ℚ) : Option Tone :=
  match previousPrice with
  | some previous =>
    if price > previous then some Tone.positive
    else if price < previous then some Tone.negative
    else none
  | none => none

/-- `updatePriceDisplay(previousPrice)`. -/
def updatePriceDisplay (s : State) (previousPrice : Option ℚ) : State :=
  match getRecord s.priceData s.currentSymbol with
  | none => s
  | some data =>
    let dir := tickDirection data.price previousPrice data.priceChangePercent24h
    let shown : PriceView :=
      { previousPrice := previousPrice
        symbol := s.currentSymbol
        rawPrice := data.price
        arrow := dir.1
        priceTone := dir.2
        changeTone := toneOf data.priceChangePercent24h
        micro := updateMarketMicrostructure data
        vola := updateVolatilityMetrics data
        risk := updateRiskIndicators data
        footerTone := footerTone data.price previousPrice }
    { s with view := { s.view with price := some shown } }

/-! ## TopMoversRanker -/

/-- The comparator of the sort: `Math.abs(b.change) - Math.abs(a.change)`. -/
def compareMovers (a b : Mover) : ℚ := |b.change| - |a.change|

/-- Whether the comparator lets `a` stay before `b` (its value is not positive). -/
def moverLe (a b : Mover) : Bool := decide (compareMovers a b ≤ 0)

/-- `Object.entries(state.priceData).map(...)`: one mover per stored record. -/
def moverEntries (store : List (String × PriceRecord)) : List Mover :=
  store.map (fun e => { symbol := e.1, change := e.2.priceChangePercent24h })

/-- The local `movers` of `updateTopMovers`: map, stable sort, `slice(0, 5)`. -/
def topMovers (store : List (String × PriceRecord)) : List Mover :=
  ((moverEntries store).mergeSort moverLe).take 5

/-- `updateTopMovers()`. -/
def updateTopMovers (s : State) : State :=
  { s with view := { s.view with movers := topMovers s.priceData } }

/-! ## Anomaly detection -/

/-- `detectAnomalies(symbol)`. -/
def detectAnomalies (s : State) (symbol : String) (clk : Clock) : State :=
  match getRecord s.priceData symbol with
  | none => s
  | some data =>
    if |data.priceChangePercent24h| > 10 then
      let item : Anomaly :=
        { kind := AnomalyKind.warning, symbol := symbol, change := data.priceChangePercent24h }
      let s1 := { s with view := { s.view with anomaly := some item } }
      if symbol = s1.currentSymbol then
        addAlert s1 ("High volatility detected for " ++ symbol) "warning" clk.timeStr
      else s1
    else if |data.priceChangePercent24h| > 5 then
      let item : Anomaly :=
        { kind := AnomalyKind.info, symbol := symbol, change := data.priceChangePercent24h }
      { s with view := { s.view with anomaly := some item } }
    else s

/-! ## Streaming adapter -/

/-- The record literal built by `handleTickerUpdate`. -/
def tickerRecord (data : Ticker) (now : Nat) : PriceRecord :=
  { price := data.c
    high24h := data.h
    low24h := data.l
    volume24h := data.v
    priceChange24h := some data.p
    priceChangePercent24h := data.P
    lastUpdate := now }

/-- `handleTickerUpdate(data)`. -/
def handleTickerUpdate (s : State) (data : Ticker) (clk : Clock) : State :=
  let symbol := stripQuote data.s
  let s1 := { s with
    priceData := setRecord s.priceData symbol (tickerRecord data clk.now)
    dataPointsCount := s.dataPointsCount + 1
    lastUpdateTime := clk.now }
  let s2 :=
    if symbol = s1.currentSymbol then
      let previous := s1.lastLivePrice
      updatePriceDisplay
        { s1 with lastLivePrice := (getRecord s1.priceData symbol).map (fun r => r.price) }
        previous
    else s1
  detectAnomalies (updateTopMovers s2) symbol clk

/-! ## Polling adapter -/

/-- The local `mapping` of `fetchAllCryptoData`: asset id to symbol. -/
def mapping (id : String) : Option String :=
  if id = "bitcoin" then some "BTC"
  else if id = "ethereum" then some "ETH"
  else if id = "cardano" then some "ADA"
  else if id = "polkadot" then some "DOT"
  else if id = "solana" then some "SOL"
  else if id = "binancecoin" then some "BNB"
  else if id = "ripple" then some "XRP"
  else if id = "dogecoin" then some "DOGE"
  else if id = "matic-network" then some "MATIC"
  else if id = "litecoin" then some "LTC"
  else none

/-- The record literal built in the polling loop from `data[id]`. -/
def snapshotRecord (snap : Snapshot) (now : Nat) : PriceRecord :=
  { price := snap.usd
    high24h := jsOrOpt snap.usd_24h_high (snap.usd * (105 / 100))
    low24h := jsOrOpt snap.usd_24h_low (snap.usd * (95 / 100))
    volume24h := jsOrOpt snap.usd_24h_vol 0
    priceChange24h := snap.usd_24h_change.map (fun change => snap.usd * (change / 100))
    priceChangePercent24h := jsOrOpt snap.usd_24h_change 0
    lastUpdate := now }

/-- The loop `Object.keys(data).forEach(...)` over the entries of the body, in
key order.  An entry whose value is `null` (here `none`) makes `data[id].usd`
throw once its id is mapped; the loop stops there and what was written stays.
The result is the store and whether the loop ran to its end. -/
def pollLoop (store : List (String × PriceRecord)) (now : Nat) :
    List (String × Option Snapshot) → List (String × PriceRecord) × Bool
  | [] => (store, true)
  | (id, entry) :: rest =>
    match mapping id with
    | none => pollLoop store now rest
    | some symbol =>
      match entry with
      | none => (store, false)
      | some snap => pollLoop (setRecord store symbol (snapshotRecord snap now)) now rest

/-- `fetchAllCryptoData()` on a response: `none` is a rejected request or a body
`response.json()` cannot read; the `catch` block only logs. -/
def fetchAllCryptoData (s : State) (response : Option (List (String × Option Snapshot)))
    (clk : Clock) : State :=
  match response with
  | none => s
  | some data =>
    let looped := pollLoop s.priceData clk.now data
    let s1 := { s with priceData := looped.1 }
    if looped.2 then updateTopMovers (updatePriceDisplay s1 none) else s1

/-! ## Selection and the event loop -/

/-- The click handler installed by `setupCryptoSelector` on a selector button
with `data-symbol`, `data-name`, `data-icon`. -/
def selectSymbol (s : State) (symbol name icon : String) (clk : Clock) : State :=
  let s1 := { s with currentSymbol := symbol, currentName := name, currentIcon := icon }
  addAlert (updatePriceDisplay s1 none) ("Switched to " ++ name) "info" clk.timeStr

/-- The tasks of the event queue that touch the modelled state. -/
inductive Event where
  | tick (data : Ticker) (clk : Clock)
  | poll (response : Option (List (String × Option Snapshot))) (clk : Clock)
  | select (symbol name icon : String) (clk : Clock)
  | alert (message type : String) (clk : Clock)
deriving DecidableEq, Repr

/-- Running one task to completion. -/
def step (s : State) : Event → State
  | Event.tick data clk => handleTickerUpdate s data clk
  | Event.poll response clk => fetchAllCryptoData s response clk
  | Event.select symbol name icon clk => selectSymbol s symbol name icon clk
  | Event.alert message type clk => addAlert s message type clk.timeStr

/-- Running a sequence of tasks in arrival order. -/
def run (s : State) (events : List Event) : State := events.foldl step s

/-! ## Concrete inputs -/

/-- The entries numbered 1 to 12, inserted in that order. -/
def twelveAlerts : List AlertEntry :=
  (List.range 12).map (fun i => { message := toString (i + 1), type := "info", time := "00:00" })

/-- A record whose only field of interest is the 24h percent change. -/
def recordWithChange (changePercent : ℚ) : PriceRecord :=
  { price := 100
    high24h := 110
    low24h := 90
    volume24h := 0
    priceChange24h := some changePercent
    priceChangePercent24h := changePercent
    lastUpdate := 0 }

/-- The store `A: +12, B: -15, C: +3`, in that iteration order. -/
def storeABC : List (String × PriceRecord) :=
  [("A", recordWithChange 12), ("B", recordWithChange (-15)), ("C", recordWithChange 3)]

/-! ## Write traces -/

/-- The assignments `state.priceData[symbol] = ...` the polling loop performs on
a body, in order: one per readable entry with a mapped id, up to the first
mapped entry that cannot be read. -/
def pollWrites (now : Nat) : List (String × Option Snapshot) → List (String × PriceRecord)
  | [] => []
  | (id, entry) :: rest =>
    match mapping id with
    | none => pollWrites now rest
    | some symbol =>
      match entry with
      | none => []
      | some snap => (symbol, snapshotRecord snap now) :: pollWrites now rest

/-- The assignments `state.priceData[symbol] = ...` one task performs, in order. -/
def writes : Event → List (String × PriceRecord)
  | Event.tick data clk => [(stripQuote data.s, tickerRecord data clk.now)]
  | Event.poll none _ => []
  | Event.poll (some data) clk => pollWrites clk.now data
  | Event.select _ _ _ _ => []
  | Event.alert _ _ _ => []

/-- The record of the last write for `symbol` in a sequence of writes, if any. -/
def lastWrite (ws : List (String × PriceRecord)) (symbol : String) : Option PriceRecord :=
  (ws.reverse.find? (fun w => decide (w.1 = symbol))).map (fun w => w.2)

/-! ## Tasks between two ticks of the selected symbol -/

/-- A task that is neither a stream tick of `symbol` nor a selector click. -/
def quietFor (symbol : String) : Event → Bool
  | Event.tick data _ => decide (stripQuote data.s ≠ symbol)
  | Event.poll _ _ => true
  | Event.select _ _ _ _ => false
  | Event.alert _ _ _ => true

/-- A clock reading used in the concrete runs. -/
def clockAt (now : Nat) : Clock := { now := now, timeStr := "00:00" }

/-- A BTC tick with last price `price`. -/
def btcTick (price : ℚ) : Ticker :=
  { s := "BTCUSDT", c := price, h := 51000, l := 49000, v := 2000000000, p := 500, P := 1 }

/-- An ETH tick with last price `price`. -/
def ethTick (price : ℚ) : Ticker :=
  { s := "ETHUSDT", c := price, h := 3100, l := 2900, v := 1000000000, p := 30, P := 1 }

/-- A state whose selected symbol BTC has a stored record with price 100. -/
def stateWithBTC : State :=
  { initialState 0 with priceData := [("BTC", recordWithChange 1)] }

/-! ## Anomaly classes and further concrete inputs -/

/-- The branch taken by the chain of `detectAnomalies`:
`Math.abs(p) > 10` warning, `Math.abs(p) > 5` info, else no anomaly. -/
def anomalyKind (changePercent : ℚ) : Option AnomalyKind :=
  if |changePercent| > 10 then some AnomalyKind.warning
  else if |changePercent| > 5 then some AnomalyKind.info
  else none

/-- A polled asset with every optional field supplied. -/
def fullSnapshot : Snapshot :=
  { usd := 100
    usd_24h_high := some 104
    usd_24h_low := some 98
    usd_24h_vol := some 5000000
    usd_24h_change := some 2 }

/-- A polled asset with a supplied 24h high and low of 0 and no 24h change. -/
def zeroHighSnapshot : Snapshot :=
  { usd := 100
    usd_24h_high := some 0
    usd_24h_low := some 0
    usd_24h_vol := none
    usd_24h_change := none }

/-- A polled asset with only `usd`. -/
def bareSnapshot (usd : ℚ) : Snapshot :=
  { usd := usd
    usd_24h_high := none
    usd_24h_low := none
    usd_24h_vol := none
    usd_24h_change := none }

/-- A body whose second entry is `null`. -/
def nullEntryBody : List (String × Option Snapshot) :=
  [("bitcoin", some fullSnapshot), ("ethereum", none), ("cardano", some fullSnapshot)]

/-- A state whose selected symbol BTC has a stored record with 24h change `p`. -/
def stateWithChange (changePercent : ℚ) : State :=
  { initialState 0 with priceData := [("BTC", recordWithChange changePercent)] }

/-- A record with an empty 24h range: high, low and price all 100. -/
def flatRecord : PriceRecord :=
  { price := 100
    high24h := 100
    low24h := 100
    volume24h := 0
    priceChange24h := some 0
    priceChangePercent24h := 0
    lastUpdate := 0 }

/-- A record whose price 120 lies above its 24h range [90, 110]. -/
def aboveRangeRecord : PriceRecord :=
  { price := 120
    high24h := 110
    low24h := 90
    volume24h := 0
    priceChange24h := some 0
    priceChangePercent24h := 0
    lastUpdate := 0 }

/-- A record with price at its 24h low: high 103, low 100, price 100. -/
def atLowRecord : PriceRecord :=
  { price := 100
    high24h := 103
    low24h := 100
    volume24h := 0
    priceChange24h := some 0
    priceChangePercent24h := 0
    lastUpdate := 0 }

/-- A record with price at the midpoint of its 24h range: high 102, low 98. -/
def midpointRecord : PriceRecord :=
  { price := 100
    high24h := 102
    low24h := 98
    volume24h := 0
    priceChange24h := some 0
    priceChangePercent24h := 0
    lastUpdate := 0 }

/-! # Theorems -/

/-! ## AlertLog -/

theorem take_append_take_right {α : Type} (n : Nat) (l m : List α) :
    (l ++ m.take n).take n = (l ++ m).take n := by
  rw [List.take_append_eq_append_take, List.take_append_eq_append_take, List.take_take]
  congr 2
  omega

theorem addAlert_alerts (s : State) (message type timeStr : String)
    (h : s.alerts.length ≤ 10) :
    (addAlert s message type timeStr).alerts
      = (({ message := message, type := type, time := timeStr } : AlertEntry) :: s.alerts).take 10 := by
  unfold addAlert
  simp only []
  split
  · rename_i hlen
    rw [List.dropLast_eq_take]
    simp only [List.length_cons] at hlen ⊢
    have : s.alerts.length = 10 := by omega
    rw [this]
  · rename_i hlen
    rw [List.take_of_length_le]
    simpa using hlen

theorem addAlert_length_le (s : State) (message type timeStr : String)
    (h : s.alerts.length ≤ 10) :
    (addAlert s message type timeStr).alerts.length ≤ 10 := by
  rw [addAlert_alerts s message type timeStr h, List.length_take]
  omega

theorem addAlerts_alerts (es : List AlertEntry) :
    ∀ s : State, s.alerts.length ≤ 10 →
      (addAlerts s es).alerts = (es.reverse ++ s.alerts).take 10 := by
  induction es with
  | nil =>
    intro s h
    simp [addAlerts, List.take_of_length_le h]
  | cons e es ih =>
    intro s h
    have hstep := addAlert_alerts s e.message e.type e.time h
    have hlen := addAlert_length_le s e.message e.type e.time h
    have := ih (addAlert s e.message e.type e.time) hlen
    simp only [addAlerts, List.foldl_cons] at this ⊢
    rw [this, hstep, take_append_take_right]
    simp

/-- C1: starting from an empty alert log, `n` calls of `addAlert` leave the last
`min n 10` inserted entries, most recent first, so the log has `min n 10`
entries and never more than 10. -/
theorem alertLog_keeps_ten_most_recent (s : State) (es : List AlertEntry)
    (h : s.alerts = []) :
    (addAlerts s es).alerts = es.reverse.take (min es.length 10)
      ∧ (addAlerts s es).alerts = (es.drop (es.length - min es.length 10)).reverse
      ∧ (addAlerts s es).alerts.length = min es.length 10
      ∧ (addAlerts s es).alerts.length ≤ 10 := by
  have key : (addAlerts s es).alerts = es.reverse.take 10 := by
    rw [addAlerts_alerts es s (by simp [h]), h, List.append_nil]
  have h1 : (addAlerts s es).alerts = es.reverse.take (min es.length 10) := by
    rw [key]
    rcases Nat.le_total es.length 10 with hle | hle
    · rw [Nat.min_eq_left hle, List.take_of_length_le (by simpa using hle),
        List.take_of_length_le (by simp)]
    · rw [Nat.min_eq_right hle]
  refine ⟨h1, ?_, ?_, ?_⟩
  · rw [h1, List.reverse_drop]
    congr 1
    omega
  · rw [h1, List.length_take, List.length_reverse]
    omega
  · rw [h1, List.length_take, List.length_reverse]
    omega

theorem alertLog_keeps_ten_most_recent_witness :
    (initialState 0).alerts = []
      ∧ ((addAlerts (initialState 0) twelveAlerts).alerts
            = twelveAlerts.reverse.take (min twelveAlerts.length 10)
          ∧ (addAlerts (initialState 0) twelveAlerts).alerts
            = (twelveAlerts.drop (twelveAlerts.length - min twelveAlerts.length 10)).reverse
          ∧ (addAlerts (initialState 0) twelveAlerts).alerts.length = min twelveAlerts.length 10
          ∧ (addAlerts (initialState 0) twelveAlerts).alerts.length ≤ 10)
      ∧ (addAlerts (initialState 0) twelveAlerts).alerts.map (fun e => e.message)
          = ["12", "11", "10", "9", "8", "7", "6", "5", "4", "3"] :=
  ⟨rfl, alertLog_keeps_ten_most_recent (initialState 0) twelveAlerts rfl, by decide⟩

/-! ## TopMoversRanker -/

theorem moverLe_iff (a b : Mover) : moverLe a b = true ↔ |b.change| ≤ |a.change| := by
  simp [moverLe, compareMovers]

theorem moverLe_trans (a b c : Mover) (hab : moverLe a b = true) (hbc : moverLe b c = true) :
    moverLe a c = true := by
  rw [moverLe_iff] at *
  exact le_trans hbc hab

theorem moverLe_total (a b : Mover) : (moverLe a b || moverLe b a) = true := by
  rw [Bool.or_eq_true, moverLe_iff, moverLe_iff]
  exact le_total _ _

theorem sorted_moverEntries (l : List Mover) : (l.mergeSort moverLe).Pairwise
    (fun a b => moverLe a b = true) :=
  List.sorted_mergeSort moverLe_trans moverLe_total l

/-- Stability on one tie class: the movers whose `|change|` is `x` come out of the
sort in the order they went in. -/
theorem filter_mergeSort_tie (l : List Mover) (x : ℚ) :
    (l.mergeSort moverLe).filter (fun m => decide (|m.change| = x))
      = l.filter (fun m => decide (|m.change| = x)) := by
  have hpw : (l.filter (fun m => decide (|m.change| = x))).Pairwise
      (fun a b => moverLe a b = true) := by
    rw [List.pairwise_iff_forall_sublist]
    intro a b hab
    have ha : a ∈ l.filter (fun m => decide (|m.change| = x)) := hab.subset (by simp)
    have hb : b ∈ l.filter (fun m => decide (|m.change| = x)) := hab.subset (by simp)
    simp only [List.mem_filter, decide_eq_true_eq] at ha hb
    rw [moverLe_iff, ha.2, hb.2]
  have hsub := List.sublist_mergeSort moverLe_trans moverLe_total hpw (List.filter_sublist l)
  have hsub2 := hsub.filter (fun m => decide (|m.change| = x))
  rw [List.filter_filter] at hsub2
  simp only [Bool.and_self] at hsub2
  have hlen : (l.filter (fun m => decide (|m.change| = x))).length
      = ((l.mergeSort moverLe).filter (fun m => decide (|m.change| = x))).length :=
    ((List.mergeSort_perm l moverLe).filter _).length_eq.symm
  exact (hsub2.eq_of_length hlen).symm

/-- C2: the movers list has `min 5 n` entries, each a (symbol, percent change)
pair of a stored record (no record used twice), in non-increasing order of
`|change|`, and every stored symbol that is not listed has a `|change|` at most
that of every listed entry. -/
theorem topMovers_ranked (store : List (String × PriceRecord)) :
    (topMovers store).length = min 5 store.length
      ∧ (∀ m ∈ topMovers store,
          ∃ e ∈ store, m = { symbol := e.1, change := e.2.priceChangePercent24h })
      ∧ (topMovers store).Subperm (moverEntries store)
      ∧ (topMovers store).Pairwise (fun a b => |b.change| ≤ |a.change|)
      ∧ (∀ e ∈ store, e.1 ∉ (topMovers store).map (fun m => m.symbol) →
          ∀ m ∈ topMovers store, |e.2.priceChangePercent24h| ≤ |m.change|) := by
  have hsorted := sorted_moverEntries (moverEntries store)
  refine ⟨?_, ?_, ?_, ?_, ?_⟩
  · simp [topMovers, moverEntries, List.length_take]
  · intro m hm
    have h1 : m ∈ (moverEntries store).mergeSort moverLe := List.mem_of_mem_take hm
    rw [List.mem_mergeSort] at h1
    simp only [moverEntries, List.mem_map] at h1
    obtain ⟨e, he, rfl⟩ := h1
    exact ⟨e, he, rfl⟩
  · exact ((List.take_sublist 5 _).subperm).trans (List.mergeSort_perm _ _).subperm
  · have := hsorted.sublist (List.take_sublist 5 _)
    exact this.imp (fun {a b} h => (moverLe_iff a b).1 h)
  · intro e he hnot m hm
    simp only [topMovers] at hnot hm
    have hmem : ({ symbol := e.1, change := e.2.priceChangePercent24h } : Mover)
        ∈ (moverEntries store).mergeSort moverLe := by
      rw [List.mem_mergeSort]
      exact List.mem_map.2 ⟨e, he, rfl⟩
    rw [← List.take_append_drop 5 ((moverEntries store).mergeSort moverLe),
      List.mem_append] at hmem
    rcases hmem with h | h
    · have hsym := List.mem_map_of_mem (fun m : Mover => m.symbol) h
      exact (hnot hsym).elim
    · have hr : moverLe m { symbol := e.1, change := e.2.priceChangePercent24h } = true :=
        @List.Sorted.rel_of_mem_take_of_mem_drop Mover (fun a b => moverLe a b = true) _
          hsorted 5 m _ hm h
      have hle := (moverLe_iff m _).1 hr
      dsimp only at hle
      exact hle

/-- C3: for every magnitude `x`, the listed movers with `|change| = x` are an
initial segment of the stored entries with `|change| = x`, taken in the store's
iteration order: tied symbols keep their relative order, and when the cut at 5
falls inside a tie the earlier-iterated ones are the ones kept. -/
theorem topMovers_stable (store : List (String × PriceRecord)) (x : ℚ) :
    (topMovers store).filter (fun m => decide (|m.change| = x))
      <+: (moverEntries store).filter (fun m => decide (|m.change| = x)) := by
  have h := List.IsPrefix.filter (fun m : Mover => decide (|m.change| = x))
    (List.take_prefix 5 ((moverEntries store).mergeSort moverLe))
  rw [filter_mergeSort_tie] at h
  exact h

theorem topMovers_storeABC :
    (topMovers storeABC).map (fun m => m.symbol) = ["B", "A", "C"] := by
  norm_num [topMovers, storeABC, moverEntries, recordWithChange, List.mergeSort, List.merge,
    moverLe, compareMovers, List.splitInTwo]
  

/-! ## PriceStore -/

theorem getRecord_setRecord_same (store : List (String × PriceRecord)) (symbol : String)
    (record : PriceRecord) : getRecord (setRecord store symbol record) symbol = some record := by
  induction store with
  | nil => simp [setRecord, getRecord]
  | cons e rest ih =>
    obtain ⟨k, v⟩ := e
    by_cases hk : k = symbol
    · simp [setRecord, getRecord, hk]
    · simp [setRecord, getRecord, hk, ih]

theorem getRecord_setRecord_other (store : List (String × PriceRecord)) (symbol other : String)
    (record : PriceRecord) (h : symbol ≠ other) :
    getRecord (setRecord store symbol record) other = getRecord store other := by
  induction store with
  | nil => simp [setRecord, getRecord, h]
  | cons e rest ih =>
    obtain ⟨k, v⟩ := e
    by_cases hk : k = symbol
    · subst hk
      simp [setRecord, getRecord, h]
    · by_cases hs : k = other
      · subst hs
        simp [setRecord, getRecord, hk]
      · simp [setRecord, getRecord, hk, hs, ih]

/-- Reading after a sequence of writes: the last write for the symbol, or the
record that was there before when there is none. -/
theorem getRecord_foldl_setRecord (ws : List (String × PriceRecord)) :
    ∀ (store : List (String × PriceRecord)) (symbol : String),
      getRecord (ws.foldl (fun st w => setRecord st w.1 w.2) store) symbol
        = match lastWrite ws symbol with
          | some r => some r
          | none => getRecord store symbol := by
  induction ws using List.reverseRecOn with
  | nil => intro store symbol; simp [lastWrite]
  | append_singleton ws w ih =>
    intro store symbol
    rw [List.foldl_append]
    simp only [List.foldl_cons, List.foldl_nil]
    by_cases hw : w.1 = symbol
    · subst hw
      rw [getRecord_setRecord_same]
      simp [lastWrite]
    · rw [getRecord_setRecord_other _ _ _ _ hw, ih]
      simp [lastWrite, hw]

@[simp] theorem addAlert_priceData (s : State) (message type timeStr : String) :
    (addAlert s message type timeStr).priceData = s.priceData := rfl

@[simp] theorem updatePriceDisplay_priceData (s : State) (previousPrice : Option ℚ) :
    (updatePriceDisplay s previousPrice).priceData = s.priceData := by
  unfold updatePriceDisplay
  split <;> rfl

@[simp] theorem updateTopMovers_priceData (s : State) :
    (updateTopMovers s).priceData = s.priceData := rfl

@[simp] theorem detectAnomalies_priceData (s : State) (symbol : String) (clk : Clock) :
    (detectAnomalies s symbol clk).priceData = s.priceData := by
  unfold detectAnomalies
  split
  · rfl
  · dsimp only
    split_ifs <;> rfl

theorem pollLoop_store (now : Nat) (data : List (String × Option Snapshot)) :
    ∀ store : List (String × PriceRecord),
      (pollLoop store now data).1
        = (pollWrites now data).foldl (fun st w => setRecord st w.1 w.2) store := by
  induction data with
  | nil => intro store; rfl
  | cons e rest ih =>
    intro store
    obtain ⟨id, entry⟩ := e
    unfold pollLoop pollWrites
    cases hmap : mapping id with
    | none => simpa using ih store
    | some symbol =>
      cases entry with
      | none => rfl
      | some snap => simpa using ih _

theorem step_priceData (s : State) (e : Event) :
    (step s e).priceData = (writes e).foldl (fun st w => setRecord st w.1 w.2) s.priceData := by
  cases e with
  | tick data clk =>
    simp only [step, writes, handleTickerUpdate, List.foldl_cons, List.foldl_nil,
      detectAnomalies_priceData, updateTopMovers_priceData]
    split_ifs <;> simp
  | poll response clk =>
    cases response with
    | none => rfl
    | some data =>
      simp only [step, writes, fetchAllCryptoData]
      rw [← pollLoop_store]
      split_ifs <;> simp
  | select symbol name icon clk => simp [step, writes, selectSymbol]
  | alert message type clk => simp [step, writes]

theorem run_priceData (events : List Event) :
    ∀ s : State, (run s events).priceData
      = (events.flatMap writes).foldl (fun st w => setRecord st w.1 w.2) s.priceData := by
  induction events with
  | nil => intro s; rfl
  | cons e rest ih =>
    intro s
    simp only [run, List.foldl_cons, List.flatMap_cons, List.foldl_append] at ih ⊢
    rw [ih, step_priceData]

/-- C4: after any sequence of stream ticks and poll cycles (and other tasks),
reading `state.priceData[symbol]` gives exactly the record of the last write
for that symbol, whole, and the record that was there before when no write was
for it; writes for other symbols do not change what is read. -/
theorem priceStore_last_write_wins (s : State) (events : List Event) (symbol : String) :
    getRecord (run s events).priceData symbol
      = match lastWrite (events.flatMap writes) symbol with
        | some record => some record
        | none => getRecord s.priceData symbol := by
  rw [run_priceData, getRecord_foldl_setRecord]

/-! ## TickDirectionTracker -/

@[simp] theorem addAlert_lastLivePrice (s : State) (message type timeStr : String) :
    (addAlert s message type timeStr).lastLivePrice = s.lastLivePrice := rfl

@[simp] theorem addAlert_currentSymbol (s : State) (message type timeStr : String) :
    (addAlert s message type timeStr).currentSymbol = s.currentSymbol := rfl

@[simp] theorem addAlert_view (s : State) (message type timeStr : String) :
    (addAlert s message type timeStr).view = s.view := rfl

@[simp] theorem updatePriceDisplay_lastLivePrice (s : State) (previousPrice : Option ℚ) :
    (updatePriceDisplay s previousPrice).lastLivePrice = s.lastLivePrice := by
  unfold updatePriceDisplay
  split <;> rfl

@[simp] theorem updatePriceDisplay_currentSymbol (s : State) (previousPrice : Option ℚ) :
    (updatePriceDisplay s previousPrice).currentSymbol = s.currentSymbol := by
  unfold updatePriceDisplay
  split <;> rfl

@[simp] theorem updateTopMovers_lastLivePrice (s : State) :
    (updateTopMovers s).lastLivePrice = s.lastLivePrice := rfl

@[simp] theorem updateTopMovers_currentSymbol (s : State) :
    (updateTopMovers s).currentSymbol = s.currentSymbol := rfl

@[simp] theorem updateTopMovers_view_price (s : State) :
    (updateTopMovers s).view.price = s.view.price := rfl

@[simp] theorem detectAnomalies_lastLivePrice (s : State) (symbol : String) (clk : Clock) :
    (detectAnomalies s symbol clk).lastLivePrice = s.lastLivePrice := by
  unfold detectAnomalies
  split
  · rfl
  · dsimp only
    split_ifs <;> rfl

@[simp] theorem detectAnomalies_currentSymbol (s : State) (symbol : String) (clk : Clock) :
    (detectAnomalies s symbol clk).currentSymbol = s.currentSymbol := by
  unfold detectAnomalies
  split
  · rfl
  · dsimp only
    split_ifs <;> rfl

@[simp] theorem detectAnomalies_view_price (s : State) (symbol : String) (clk : Clock) :
    (detectAnomalies s symbol clk).view.price = s.view.price := by
  unfold detectAnomalies
  split
  · rfl
  · dsimp only
    split_ifs <;> rfl

/-- What `updatePriceDisplay` shows when the selected symbol has a record. -/
theorem updatePriceDisplay_view_price (s : State) (previousPrice : Option ℚ) (data : PriceRecord)
    (h : getRecord s.priceData s.currentSymbol = some data) :
    (updatePriceDisplay s previousPrice).view.price = some
      { previousPrice := previousPrice
        symbol := s.currentSymbol
        rawPrice := data.price
        arrow := (tickDirection data.price previousPrice data.priceChangePercent24h).1
        priceTone := (tickDirection data.price previousPrice data.priceChangePercent24h).2
        changeTone := toneOf data.priceChangePercent24h
        micro := updateMarketMicrostructure data
        vola := updateVolatilityMetrics data
        risk := updateRiskIndicators data
        footerTone := footerTone data.price previousPrice } := by
  unfold updatePriceDisplay
  rw [h]

/-- A tick of the selected symbol: the display gets the remembered price as
`previousPrice` and the tick's price as current, and the tick's price is
remembered. -/
theorem handleTickerUpdate_selected (s : State) (data : Ticker) (clk : Clock)
    (h : stripQuote data.s = s.currentSymbol) :
    (handleTickerUpdate s data clk).lastLivePrice = some data.c
      ∧ (handleTickerUpdate s data clk).currentSymbol = s.currentSymbol
      ∧ (handleTickerUpdate s data clk).view.price = some
          { previousPrice := s.lastLivePrice
            symbol := s.currentSymbol
            rawPrice := data.c
            arrow := (tickDirection data.c s.lastLivePrice data.P).1
            priceTone := (tickDirection data.c s.lastLivePrice data.P).2
            changeTone := toneOf data.P
            micro := updateMarketMicrostructure (tickerRecord data clk.now)
            vola := updateVolatilityMetrics (tickerRecord data clk.now)
            risk := updateRiskIndicators (tickerRecord data clk.now)
            footerTone := footerTone data.c s.lastLivePrice } := by
  have hget : getRecord (setRecord s.priceData s.currentSymbol (tickerRecord data clk.now))
      s.currentSymbol = some (tickerRecord data clk.now) := getRecord_setRecord_same _ _ _
  simp only [handleTickerUpdate, h, if_true, detectAnomalies_lastLivePrice,
    updateTopMovers_lastLivePrice, updatePriceDisplay_lastLivePrice,
    detectAnomalies_currentSymbol, updateTopMovers_currentSymbol,
    updatePriceDisplay_currentSymbol, detectAnomalies_view_price, updateTopMovers_view_price,
    hget, Option.map_some']
  refine ⟨rfl, trivial, ?_⟩
  rw [updatePriceDisplay_view_price _ _ (tickerRecord data clk.now) (by simpa using hget)]
  rfl

/-- A tick of another symbol leaves the remembered price and the selection. -/
theorem handleTickerUpdate_other (s : State) (data : Ticker) (clk : Clock)
    (h : stripQuote data.s ≠ s.currentSymbol) :
    (handleTickerUpdate s data clk).lastLivePrice = s.lastLivePrice
      ∧ (handleTickerUpdate s data clk).currentSymbol = s.currentSymbol := by
  simp [handleTickerUpdate, h]

@[simp] theorem fetchAllCryptoData_lastLivePrice (s : State)
    (response : Option (List (String × Option Snapshot))) (clk : Clock) :
    (fetchAllCryptoData s response clk).lastLivePrice = s.lastLivePrice := by
  unfold fetchAllCryptoData
  cases response with
  | none => rfl
  | some data =>
    dsimp only
    split_ifs <;> simp

@[simp] theorem fetchAllCryptoData_currentSymbol (s : State)
    (response : Option (List (String × Option Snapshot))) (clk : Clock) :
    (fetchAllCryptoData s response clk).currentSymbol = s.currentSymbol := by
  unfold fetchAllCryptoData
  cases response with
  | none => rfl
  | some data =>
    dsimp only
    split_ifs <;> simp

/-- The selector click handler never touches `state.lastLivePrice`. -/
theorem selectSymbol_lastLivePrice (s : State) (symbol name icon : String) (clk : Clock) :
    (selectSymbol s symbol name icon clk).lastLivePrice = s.lastLivePrice := by
  simp [selectSymbol]

theorem selectSymbol_currentSymbol (s : State) (symbol name icon : String) (clk : Clock) :
    (selectSymbol s symbol name icon clk).currentSymbol = symbol := by
  simp [selectSymbol]

theorem step_quiet (s : State) (e : Event) (h : quietFor s.currentSymbol e = true) :
    (step s e).lastLivePrice = s.lastLivePrice ∧ (step s e).currentSymbol = s.currentSymbol := by
  cases e with
  | tick data clk =>
    simp only [quietFor, decide_eq_true_eq] at h
    exact handleTickerUpdate_other s data clk h
  | poll response clk => simp [step]
  | select symbol name icon clk => simp [quietFor] at h
  | alert message type clk => simp [step]

theorem run_quiet (events : List Event) :
    ∀ s : State, (∀ e ∈ events, quietFor s.currentSymbol e = true) →
      (run s events).lastLivePrice = s.lastLivePrice
        ∧ (run s events).currentSymbol = s.currentSymbol := by
  induction events with
  | nil => intro s _; exact ⟨rfl, rfl⟩
  | cons e rest ih =>
    intro s h
    have h1 := step_quiet s e (h e (List.mem_cons_self _ _))
    have h2 := ih (step s e) (fun e' he' => by
      rw [h1.2]; exact h e' (List.mem_cons_of_mem _ he'))
    simp only [run, List.foldl_cons] at h2 ⊢
    exact ⟨h2.1.trans h1.1, h2.2.trans h1.2⟩

theorem stripQuote_btc : stripQuote "BTCUSDT" = "BTC" := by decide

theorem stripQuote_eth : stripQuote "ETHUSDT" = "ETH" := by decide

/-- C5: a tick of the selected symbol hands the remembered price to the display
as `previousPrice` and remembers its own price; so of two consecutive ticks of
the selected symbol with prices `p1`, `p2` (other tasks in between, no selector
click) the second is displayed with previous `p1` and current `p2` and leaves
`lastLivePrice = p2`; and the first such tick after start is displayed with no
previous price. -/
theorem tick_observes_previous_price (s : State) (t1 t2 : Ticker) (c1 c2 : Clock)
    (between : List Event)
    (h1 : stripQuote t1.s = s.currentSymbol) (h2 : stripQuote t2.s = s.currentSymbol)
    (hquiet : ∀ e ∈ between, quietFor s.currentSymbol e = true) :
    (∃ pv, (handleTickerUpdate s t1 c1).view.price = some pv
        ∧ pv.previousPrice = s.lastLivePrice ∧ pv.rawPrice = t1.c)
      ∧ (handleTickerUpdate s t1 c1).lastLivePrice = some t1.c
      ∧ (∃ pv, (handleTickerUpdate (run (handleTickerUpdate s t1 c1) between) t2 c2).view.price
          = some pv ∧ pv.previousPrice = some t1.c ∧ pv.rawPrice = t2.c)
      ∧ (handleTickerUpdate (run (handleTickerUpdate s t1 c1) between) t2 c2).lastLivePrice
          = some t2.c
      ∧ (∀ (t0 : Nat) (before : List Event) (t : Ticker) (c : Clock),
          (∀ e ∈ before, quietFor "BTC" e = true) → stripQuote t.s = "BTC" →
          ∃ pv, (handleTickerUpdate (run (initialState t0) before) t c).view.price = some pv
            ∧ pv.previousPrice = none ∧ pv.rawPrice = t.c) := by
  have hfirst := handleTickerUpdate_selected s t1 c1 h1
  have hrun := run_quiet between (handleTickerUpdate s t1 c1)
    (fun e he => by rw [hfirst.2.1]; exact hquiet e he)
  have hsecond := handleTickerUpdate_selected (run (handleTickerUpdate s t1 c1) between) t2 c2
    (by rw [hrun.2, hfirst.2.1]; exact h2)
  refine ⟨⟨_, hfirst.2.2, rfl, rfl⟩, hfirst.1, ⟨_, hsecond.2.2, ?_, rfl⟩, hsecond.1, ?_⟩
  · rw [hrun.1, hfirst.1]
  · intro t0 before t c hbefore ht
    have hrun0 := run_quiet before (initialState t0) hbefore
    have htick := handleTickerUpdate_selected (run (initialState t0) before) t c
      (by rw [hrun0.2]; exact ht)
    refine ⟨_, htick.2.2, ?_, rfl⟩
    rw [hrun0.1]
    rfl

theorem tick_observes_previous_price_witness :
    stripQuote (btcTick 100).s = (initialState 0).currentSymbol
      ∧ stripQuote (btcTick 105).s = (initialState 0).currentSymbol
      ∧ (∀ e ∈ [Event.tick (ethTick 3000) (clockAt 2)],
          quietFor (initialState 0).currentSymbol e = true)
      ∧ (∃ pv, (handleTickerUpdate (run (handleTickerUpdate (initialState 0) (btcTick 100)
            (clockAt 1)) [Event.tick (ethTick 3000) (clockAt 2)]) (btcTick 105)
            (clockAt 3)).view.price = some pv
          ∧ pv.previousPrice = some 100 ∧ pv.rawPrice = 105) :=
  ⟨by decide, by decide, by decide,
    (tick_observes_previous_price (initialState 0) (btcTick 100) (btcTick 105) (clockAt 1)
      (clockAt 3) [Event.tick (ethTick 3000) (clockAt 2)] (by decide) (by decide)
      (by decide)).2.2.1⟩

/-- C6 at a concrete run: BTC ticks at 50000, the user clicks ETH, ETH ticks at
3000.  The click leaves `lastLivePrice` at the BTC price, and the ETH tick is
displayed with that price as previous, as a downward move. -/
theorem selectSymbol_keeps_stale_price :
    (selectSymbol (handleTickerUpdate (initialState 0) (btcTick 50000) (clockAt 1))
        "ETH" "Ethereum" "E" (clockAt 2)).lastLivePrice = some 50000
      ∧ ((handleTickerUpdate
          (selectSymbol (handleTickerUpdate (initialState 0) (btcTick 50000) (clockAt 1))
            "ETH" "Ethereum" "E" (clockAt 2))
          (ethTick 3000) (clockAt 3)).view.price.map
            (fun pv => (pv.symbol, pv.previousPrice, pv.rawPrice, pv.arrow)))
          = some ("ETH", some 50000, 3000, Arrow.down) := by
  have hbtc := handleTickerUpdate_selected (initialState 0) (btcTick 50000) (clockAt 1)
    stripQuote_btc
  have hsel : (selectSymbol (handleTickerUpdate (initialState 0) (btcTick 50000) (clockAt 1))
      "ETH" "Ethereum" "E" (clockAt 2)).lastLivePrice = some 50000 := by
    rw [selectSymbol_lastLivePrice, hbtc.1]
    rfl
  have heth := handleTickerUpdate_selected
    (selectSymbol (handleTickerUpdate (initialState 0) (btcTick 50000) (clockAt 1))
      "ETH" "Ethereum" "E" (clockAt 2)) (ethTick 3000) (clockAt 3)
    (by rw [selectSymbol_currentSymbol]; exact stripQuote_eth)
  refine ⟨hsel, ?_⟩
  rw [heth.2.2, hsel, selectSymbol_currentSymbol]
  norm_num [tickDirection, ethTick]

/-! ## Direction classification -/

theorem tickDirection_arrow_up (c : ℚ) (prev : Option ℚ) (pct : ℚ) :
    (tickDirection c prev pct).1 = Arrow.up ↔ ∃ p, prev = some p ∧ c > p := by
  cases prev with
  | none => simp [tickDirection]
  | some p =>
    simp only [tickDirection, Option.some.injEq, exists_eq_left']
    split_ifs with h1 h2 <;> simp [h1]

theorem tickDirection_arrow_down (c : ℚ) (prev : Option ℚ) (pct : ℚ) :
    (tickDirection c prev pct).1 = Arrow.down ↔ ∃ p, prev = some p ∧ c < p := by
  cases prev with
  | none => simp [tickDirection]
  | some p =>
    simp only [tickDirection, Option.some.injEq, exists_eq_left']
    split_ifs with h1 h2
    · simp [le_of_lt h1]
    · simp [h2]
    · simp [h2]

theorem tickDirection_arrow_neutral (c : ℚ) (prev : Option ℚ) (pct : ℚ) :
    (tickDirection c prev pct).1 = Arrow.neutral ↔ (prev = some c ∨ prev = none) := by
  cases prev with
  | none => simp [tickDirection]
  | some p =>
    simp only [tickDirection, Option.some.injEq, or_false, reduceCtorEq]
    split_ifs with h1 h2
    · simp [ne_of_lt h1]
    · simp [ne_of_gt h2]
    · simp only [true_iff]
      exact le_antisymm (not_lt.1 h2) (not_lt.1 h1)

/-- C7: the arrow set by `updatePriceDisplay` is up exactly when a previous price
is present and the price is above it, down exactly when one is present and the
price is below it, and neutral exactly when one is present and equal (flat: no
tick colour) or none is present (no direction: colour from the 24h sign); a
previous price of 0 is a present one. -/
theorem direction_classification (s : State) (previousPrice : Option ℚ) (data : PriceRecord)
    (h : getRecord s.priceData s.currentSymbol = some data) :
    ∃ pv, (updatePriceDisplay s previousPrice).view.price = some pv
      ∧ (pv.arrow = Arrow.up ↔ ∃ p, previousPrice = some p ∧ data.price > p)
      ∧ (pv.arrow = Arrow.down ↔ ∃ p, previousPrice = some p ∧ data.price < p)
      ∧ (pv.arrow = Arrow.neutral ↔ (previousPrice = some data.price ∨ previousPrice = none))
      ∧ (previousPrice = some data.price → pv.priceTone = none ∧ pv.footerTone = none)
      ∧ (previousPrice = none →
          pv.priceTone = (if data.priceChangePercent24h > 0 then some Tone.positive
            else if data.priceChangePercent24h < 0 then some Tone.negative else none)
          ∧ pv.footerTone = none)
      ∧ (previousPrice = some 0 →
          (pv.arrow = Arrow.up ↔ data.price > 0) ∧ (pv.arrow = Arrow.down ↔ data.price < 0)
            ∧ (pv.arrow = Arrow.neutral ↔ data.price = 0)) := by
  refine ⟨_, updatePriceDisplay_view_price s previousPrice data h, ?_, ?_, ?_, ?_, ?_, ?_⟩
  · exact tickDirection_arrow_up _ _ _
  · exact tickDirection_arrow_down _ _ _
  · exact tickDirection_arrow_neutral _ _ _
  · intro hp
    subst hp
    simp [tickDirection, footerTone]
  · intro hp
    subst hp
    simp [tickDirection, footerTone]
  · intro hp
    subst hp
    refine ⟨?_, ?_, ?_⟩
    · simpa using tickDirection_arrow_up data.price (some 0) data.priceChangePercent24h
    · simpa using tickDirection_arrow_down data.price (some 0) data.priceChangePercent24h
    · have := tickDirection_arrow_neutral data.price (some 0) data.priceChangePercent24h
      simp only [Option.some.injEq, or_false, reduceCtorEq] at this
      rw [this]
      exact eq_comm

theorem direction_classification_witness :
    getRecord stateWithBTC.priceData stateWithBTC.currentSymbol = some (recordWithChange 1)
      ∧ ∃ pv, (updatePriceDisplay stateWithBTC (some 0)).view.price = some pv
          ∧ pv.arrow = Arrow.up :=
  ⟨by decide, by
    obtain ⟨pv, hpv, hup, -⟩ := direction_classification stateWithBTC (some 0)
      (recordWithChange 1) (by decide)
    exact ⟨pv, hpv, hup.2 ⟨0, rfl, by norm_num [recordWithChange]⟩⟩⟩

/-! ## Derived metrics -/

theorem jsOr_ne_zero (a b : ℚ) (hb : b ≠ 0) : jsOr a b ≠ 0 := by
  unfold jsOr
  split_ifs with h
  · exact hb
  · exact h

theorem priceRange_of_lt (data : PriceRecord) (h : data.low24h < data.high24h) :
    priceRange data = data.high24h - data.low24h := by
  unfold priceRange jsOr
  rw [if_neg (sub_ne_zero.2 (ne_of_gt h))]

/-- C8: when `high24h > low24h` the order-flow imbalance written by
`updateMarketMicrostructure` is -50 at the low, 50 at the high, 0 at the
midpoint, and within [-50, 50] for a price inside the range. -/
theorem ofi_maps_range (data : PriceRecord) (h : data.low24h < data.high24h) :
    (data.price = data.low24h → (updateMarketMicrostructure data).ofi = -50)
      ∧ (data.price = data.high24h → (updateMarketMicrostructure data).ofi = 50)
      ∧ (data.price = (data.high24h + data.low24h) / 2 →
          (updateMarketMicrostructure data).ofi = 0)
      ∧ (data.low24h ≤ data.price → data.price ≤ data.high24h →
          -50 ≤ (updateMarketMicrostructure data).ofi
            ∧ (updateMarketMicrostructure data).ofi ≤ 50) := by
  have hpos : 0 < data.high24h - data.low24h := sub_pos.2 h
  have hne : data.high24h - data.low24h ≠ 0 := ne_of_gt hpos
  have hofi : (updateMarketMicrostructure data).ofi
      = ((data.price - data.low24h) / (data.high24h - data.low24h) - 1 / 2) * 100 := by
    simp only [updateMarketMicrostructure, ofi, pricePosition, priceRange_of_lt data h]
  rw [hofi]
  refine ⟨?_, ?_, ?_, ?_⟩
  · intro hp
    rw [hp, sub_self, zero_div]
    norm_num
  · intro hp
    rw [hp, div_self hne]
    norm_num
  · intro hp
    rw [hp]
    field_simp
    ring
  · intro hlo hhi
    have h0 : 0 ≤ (data.price - data.low24h) / (data.high24h - data.low24h) :=
      div_nonneg (sub_nonneg.2 hlo) (le_of_lt hpos)
    have h1 : (data.price - data.low24h) / (data.high24h - data.low24h) ≤ 1 := by
      rw [div_le_one hpos]
      linarith
    constructor <;> linarith

theorem ofi_maps_range_witness :
    (recordWithChange 1).low24h < (recordWithChange 1).high24h
      ∧ (-50 ≤ (updateMarketMicrostructure (recordWithChange 1)).ofi
          ∧ (updateMarketMicrostructure (recordWithChange 1)).ofi ≤ 50) :=
  ⟨by norm_num [recordWithChange],
    (ofi_maps_range (recordWithChange 1) (by norm_num [recordWithChange])).2.2.2
      (by norm_num [recordWithChange]) (by norm_num [recordWithChange])⟩

/-- C9: the denominators of the derived metrics are never zero: the price range
is `high24h - low24h`, or 1 when that is zero; the average price is
`(high24h + low24h) / 2`, else `price`, else 1; the risk denominator is `price`,
or 1 when zero; they are what the written metrics divide by, and with
`high24h = low24h` the OFI is `((price - low24h) / 1 - 0.5) * 100`. -/
theorem denominators_nonzero (data : PriceRecord) :
    priceRange data ≠ 0 ∧ avgPrice data ≠ 0 ∧ riskDenominator data ≠ 0
      ∧ priceRange data
          = (if data.high24h - data.low24h = 0 then 1 else data.high24h - data.low24h)
      ∧ avgPrice data
          = (if (data.high24h + data.low24h) / 2 = 0
              then (if data.price = 0 then 1 else data.price)
              else (data.high24h + data.low24h) / 2)
      ∧ riskDenominator data = (if data.price = 0 then 1 else data.price)
      ∧ (updateMarketMicrostructure data).ofi
          = ((data.price - data.low24h) / priceRange data - 1 / 2) * 100
      ∧ (updateMarketMicrostructure data).bidAsk
          = (data.price - data.low24h) / priceRange data * 100
      ∧ (updateVolatilityMetrics data).volatility24h
          = priceRange data / avgPrice data * 100
      ∧ riskVolatility data = (data.high24h - data.low24h) / riskDenominator data * 100
      ∧ (updateMarketMicrostructure { data with high24h := data.low24h }).ofi
          = ((data.price - data.low24h) / 1 - 1 / 2) * 100 := by
  refine ⟨jsOr_ne_zero _ _ one_ne_zero, jsOr_ne_zero _ _ one_ne_zero,
    jsOr_ne_zero _ _ one_ne_zero, rfl, ?_, rfl, rfl, rfl, rfl, rfl, ?_⟩
  · unfold avgPrice jsOr
    split_ifs <;> simp_all
  · simp [updateMarketMicrostructure, ofi, pricePosition, priceRange, jsOr]

/-- C10: the risk chain gives (Low, 25) exactly below 3, (Medium, 50) exactly on
[3, 7) and (High, 75) exactly from 7 up; so 3 is Medium, 7 is High, 2.999 is Low,
the score is a function of the level, and this is what `updateRiskIndicators`
writes for its volatility value. -/
theorem risk_thresholds (v : ℚ) :
    (classifyRisk v = (Level.Low, 25) ↔ v < 3)
      ∧ (classifyRisk v = (Level.Medium, 50) ↔ 3 ≤ v ∧ v < 7)
      ∧ (classifyRisk v = (Level.High, 75) ↔ 7 ≤ v)
      ∧ ((classifyRisk v).1 = Level.Low ↔ v < 3)
      ∧ ((classifyRisk v).1 = Level.Medium ↔ 3 ≤ v ∧ v < 7)
      ∧ ((classifyRisk v).1 = Level.High ↔ 7 ≤ v)
      ∧ (classifyRisk v).2
          = (match (classifyRisk v).1 with
            | Level.Low => 25
            | Level.Medium => 50
            | Level.High => 75)
      ∧ classifyRisk 3 = (Level.Medium, 50)
      ∧ classifyRisk 7 = (Level.High, 75)
      ∧ classifyRisk (2999 / 1000) = (Level.Low, 25)
      ∧ (∀ data : PriceRecord,
          ((updateRiskIndicators data).riskLevel, (updateRiskIndicators data).riskScore)
            = classifyRisk (riskVolatility data)) := by
  have h37 : (3 : ℚ) < 7 := by norm_num
  refine ⟨?_, ?_, ?_, ?_, ?_, ?_, ?_, ?_, ?_, ?_, ?_⟩
  · unfold classifyRisk
    split_ifs with h1 h2 <;> simp [h1]
  · unfold classifyRisk
    split_ifs with h1 h2
    · simp [h1]
    · simp [h2, not_lt.1 h1]
    · simp [h2]
  · unfold classifyRisk
    split_ifs with h1 h2
    · simp
      linarith
    · simp [h2]
    · simp [not_lt.1 h2]
  · unfold classifyRisk
    split_ifs with h1 h2 <;> simp [h1]
  · unfold classifyRisk
    split_ifs with h1 h2
    · simp [h1]
    · simp [h2, not_lt.1 h1]
    · simp [h2]
  · unfold classifyRisk
    split_ifs with h1 h2
    · simp
      linarith
    · simp [h2]
    · simp [not_lt.1 h2]
  · unfold classifyRisk
    split_ifs <;> rfl
  · norm_num [classifyRisk]
  · norm_num [classifyRisk]
  · norm_num [classifyRisk]
  · intro data
    rfl

/-! ## Anomaly classification -/

theorem anomalyKind_warning_iff (p : ℚ) :
    anomalyKind p = some AnomalyKind.warning ↔ |p| > 10 := by
  unfold anomalyKind
  split_ifs with h1 h2 <;> simp [h1]

theorem anomalyKind_info_iff (p : ℚ) :
    anomalyKind p = some AnomalyKind.info ↔ 5 < |p| ∧ |p| ≤ 10 := by
  unfold anomalyKind
  split_ifs with h1 h2
  · simp [not_le.2 h1]
  · simp [h2, not_lt.1 h1]
  · simp [h2]

theorem anomalyKind_none_iff (p : ℚ) : anomalyKind p = none ↔ |p| ≤ 5 := by
  unfold anomalyKind
  split_ifs with h1 h2
  · simp
    linarith
  · simp [h2]
  · simp [not_lt.1 h2]

/-- What `detectAnomalies` leaves in the anomaly container and in the alert log,
by the class of the record's 24h change. -/
theorem detectAnomalies_effect (s : State) (symbol : String) (clk : Clock) (data : PriceRecord)
    (h : getRecord s.priceData symbol = some data) :
    (detectAnomalies s symbol clk).view.anomaly
        = (match anomalyKind data.priceChangePercent24h with
          | some kind =>
            some { kind := kind, symbol := symbol, change := data.priceChangePercent24h }
          | none => s.view.anomaly)
      ∧ (detectAnomalies s symbol clk).alerts
        = (if anomalyKind data.priceChangePercent24h = some AnomalyKind.warning
              ∧ symbol = s.currentSymbol
            then (addAlert s ("High volatility detected for " ++ symbol) "warning"
              clk.timeStr).alerts
            else s.alerts) := by
  unfold detectAnomalies anomalyKind
  rw [h]
  dsimp only
  split_ifs <;> simp_all [addAlert]

/-- C11: `detectAnomalies` shows a warning exactly when `|change| > 10`, an info
item exactly when `5 < |change| <= 10`, and leaves the container as it was
exactly when `|change| <= 5`; the class of `x` is that of `-x`, 10 is info, 5 is
none, and 11, 6, 4 give warning, info, none. -/
theorem anomaly_thresholds (s : State) (symbol : String) (clk : Clock) (data : PriceRecord)
    (h : getRecord s.priceData symbol = some data) :
    (detectAnomalies s symbol clk).view.anomaly
        = (match anomalyKind data.priceChangePercent24h with
          | some kind =>
            some { kind := kind, symbol := symbol, change := data.priceChangePercent24h }
          | none => s.view.anomaly)
      ∧ (anomalyKind data.priceChangePercent24h = some AnomalyKind.warning
          ↔ |data.priceChangePercent24h| > 10)
      ∧ (anomalyKind data.priceChangePercent24h = some AnomalyKind.info
          ↔ 5 < |data.priceChangePercent24h| ∧ |data.priceChangePercent24h| ≤ 10)
      ∧ (anomalyKind data.priceChangePercent24h = none ↔ |data.priceChangePercent24h| ≤ 5)
      ∧ anomalyKind (-data.priceChangePercent24h) = anomalyKind data.priceChangePercent24h
      ∧ anomalyKind 10 = some AnomalyKind.info
      ∧ anomalyKind 5 = none
      ∧ anomalyKind 11 = some AnomalyKind.warning
      ∧ anomalyKind 6 = some AnomalyKind.info
      ∧ anomalyKind 4 = none := by
  refine ⟨(detectAnomalies_effect s symbol clk data h).1, anomalyKind_warning_iff _,
    anomalyKind_info_iff _, anomalyKind_none_iff _, ?_, ?_, ?_, ?_, ?_, ?_⟩
  · simp [anomalyKind]
  all_goals norm_num [anomalyKind, abs_of_pos]

theorem anomaly_thresholds_witness :
    getRecord (stateWithChange (-11)).priceData "BTC" = some (recordWithChange (-11))
      ∧ (detectAnomalies (stateWithChange (-11)) "BTC" (clockAt 1)).view.anomaly
          = some { kind := AnomalyKind.warning, symbol := "BTC", change := -11 } := by
  refine ⟨by decide, ?_⟩
  have h := (anomaly_thresholds (stateWithChange (-11)) "BTC" (clockAt 1)
    (recordWithChange (-11)) (by decide)).1
  rw [h]
  have hk : anomalyKind (recordWithChange (-11)).priceChangePercent24h
      = some AnomalyKind.warning := by
    norm_num [anomalyKind, recordWithChange, abs_of_neg]
  rw [hk]
  rfl

/-! ## Polling adapter -/

/-- The id a symbol of `mapping` comes from. -/
theorem mapping_eq_some (a symbol : String) (h : mapping a = some symbol) :
    a = (if symbol = "BTC" then "bitcoin"
      else if symbol = "ETH" then "ethereum"
      else if symbol = "ADA" then "cardano"
      else if symbol = "DOT" then "polkadot"
      else if symbol = "SOL" then "solana"
      else if symbol = "BNB" then "binancecoin"
      else if symbol = "XRP" then "ripple"
      else if symbol = "DOGE" then "dogecoin"
      else if symbol = "MATIC" then "matic-network"
      else "litecoin") := by
  unfold mapping at h
  split_ifs at h with h1 h2 h3 h4 h5 h6 h7 h8 h9 h10
  all_goals (cases h; subst_vars; decide)

theorem mapping_injective (a b symbol : String) (ha : mapping a = some symbol)
    (hb : mapping b = some symbol) : a = b := by
  rw [mapping_eq_some a symbol ha, mapping_eq_some b symbol hb]

theorem fetchAllCryptoData_priceData (s : State) (data : List (String × Option Snapshot))
    (clk : Clock) :
    (fetchAllCryptoData s (some data) clk).priceData = (pollLoop s.priceData clk.now data).1 := by
  simp only [fetchAllCryptoData]
  split_ifs <;> simp

/-- A symbol no id of the body maps to keeps its record through the loop. -/
theorem pollLoop_get_unwritten (now : Nat) (symbol : String)
    (data : List (String × Option Snapshot)) :
    ∀ store : List (String × PriceRecord), (∀ e ∈ data, mapping e.1 ≠ some symbol) →
      getRecord (pollLoop store now data).1 symbol = getRecord store symbol := by
  induction data with
  | nil => intro store _; rfl
  | cons e rest ih =>
    intro store h
    obtain ⟨id, entry⟩ := e
    have hrest : ∀ e ∈ rest, mapping e.1 ≠ some symbol :=
      fun e he => h e (List.mem_cons_of_mem _ he)
    have hid : mapping id ≠ some symbol := h (id, entry) (List.mem_cons_self _ _)
    unfold pollLoop
    cases hmap : mapping id with
    | none => simpa using ih store hrest
    | some sym =>
      cases entry with
      | none => rfl
      | some snap =>
        have hne : sym ≠ symbol := fun heq => hid (by rw [hmap, heq])
        simp only []
        rw [ih _ hrest, getRecord_setRecord_other _ _ _ _ hne]

/-- In a loop that runs to its end over a body with distinct ids, the record
stored for a mapped id is the one built from its entry. -/
theorem pollLoop_get_written (now : Nat) (id symbol : String) (snap : Snapshot)
    (hmap : mapping id = some symbol) (data : List (String × Option Snapshot)) :
    ∀ store : List (String × PriceRecord), (data.map Prod.fst).Nodup →
      (pollLoop store now data).2 = true → (id, some snap) ∈ data →
      getRecord (pollLoop store now data).1 symbol = some (snapshotRecord snap now) := by
  induction data with
  | nil => intro store _ _ hmem; simp at hmem
  | cons e rest ih =>
    intro store hnd hok hmem
    obtain ⟨id0, entry0⟩ := e
    simp only [List.map_cons, List.nodup_cons] at hnd
    rcases List.mem_cons.1 hmem with heq | hin
    · obtain ⟨rfl, rfl⟩ := Prod.mk.inj heq
      have hunwritten : ∀ e ∈ rest, mapping e.1 ≠ some symbol := by
        intro e he hme
        have : e.1 = id := mapping_injective _ _ _ hme hmap
        exact hnd.1 (this ▸ List.mem_map_of_mem Prod.fst he)
      unfold pollLoop
      simp only [hmap]
      rw [pollLoop_get_unwritten now symbol rest _ hunwritten, getRecord_setRecord_same]
    · unfold pollLoop at hok ⊢
      cases hmap0 : mapping id0 with
      | none =>
        simp only [hmap0] at hok ⊢
        exact ih store hnd.2 hok hin
      | some sym0 =>
        cases entry0 with
        | none => simp [hmap0] at hok
        | some snap0 =>
          simp only [hmap0] at hok ⊢
          exact ih _ hnd.2 hok hin

/-- C12 as stated fails on the body `bitcoin: usd 100, 24h high 0, 24h low 0, no
24h change`: the stored high is 105, not the supplied 0, and the stored change
amount is `NaN` (`none`), not `price * 0 / 100`. -/
theorem poll_defaults_counterexample :
    (getRecord (fetchAllCryptoData (initialState 0) (some [("bitcoin", some zeroHighSnapshot)])
        (clockAt 1)).priceData "BTC").map
          (fun r => (r.price, r.high24h, r.priceChangePercent24h, r.priceChange24h))
        = some (100, 105, 0, none)
      ∧ zeroHighSnapshot.usd_24h_high = some 0
      ∧ (105 : ℚ) ≠ 0
      ∧ (none : Option ℚ) ≠ some (100 * 0 / 100) := by
  refine ⟨?_, rfl, by norm_num, by simp⟩
  rw [fetchAllCryptoData_priceData,
    pollLoop_get_written (clockAt 1).now "bitcoin" "BTC" zeroHighSnapshot (by decide) _ _ (by decide)
      (by decide) (by simp)]
  norm_num [snapshotRecord, zeroHighSnapshot, jsOrOpt, jsOr]

/-- C12, amended: after a poll whose loop runs to its end over a body with
distinct ids, the record stored for a mapped id has `price = usd`; `high24h` and
`low24h` are the supplied values when supplied and not 0, else `price * 1.05`
and `price * 0.95`; `volume24h` and `priceChangePercent24h` are the supplied
values, 0 when absent; `priceChange24h` is `price * priceChangePercent24h / 100`
when the 24h change is supplied; and a symbol no id of the body maps to keeps
its record. -/
theorem poll_record_defaults (s : State) (data : List (String × Option Snapshot)) (clk : Clock)
    (id symbol : String) (snap : Snapshot)
    (hids : (data.map Prod.fst).Nodup)
    (hok : (pollLoop s.priceData clk.now data).2 = true)
    (hmem : (id, some snap) ∈ data) (hmap : mapping id = some symbol) :
    (∃ r, getRecord (fetchAllCryptoData s (some data) clk).priceData symbol = some r
        ∧ r.price = snap.usd
        ∧ r.high24h = (match snap.usd_24h_high with
            | some high => if high = 0 then r.price * (105 / 100) else high
            | none => r.price * (105 / 100))
        ∧ r.low24h = (match snap.usd_24h_low with
            | some low => if low = 0 then r.price * (95 / 100) else low
            | none => r.price * (95 / 100))
        ∧ r.volume24h = (match snap.usd_24h_vol with
            | some vol => vol
            | none => 0)
        ∧ r.priceChangePercent24h = (match snap.usd_24h_change with
            | some change => change
            | none => 0)
        ∧ (snap.usd_24h_change.isSome = true →
            r.priceChange24h = some (r.price * r.priceChangePercent24h / 100))
        ∧ r.lastUpdate = clk.now)
      ∧ (∀ other : String, (∀ e ∈ data, mapping e.1 ≠ some other) →
          getRecord (fetchAllCryptoData s (some data) clk).priceData other
            = getRecord s.priceData other) := by
  constructor
  · refine ⟨snapshotRecord snap clk.now, ?_, rfl, ?_, ?_, ?_, ?_, ?_, rfl⟩
    · rw [fetchAllCryptoData_priceData]
      exact pollLoop_get_written clk.now id symbol snap hmap data s.priceData hids hok hmem
    · simp only [snapshotRecord, jsOrOpt, jsOr]
    · simp only [snapshotRecord, jsOrOpt, jsOr]
    · simp only [snapshotRecord, jsOrOpt, jsOr]
      cases hv : snap.usd_24h_vol with
      | none => rfl
      | some vol =>
        simp only []
        split_ifs with h0
        · exact h0.symm
        · rfl
    · simp only [snapshotRecord, jsOrOpt, jsOr]
      cases hc : snap.usd_24h_change with
      | none => rfl
      | some change =>
        simp only []
        split_ifs with h0
        · exact h0.symm
        · rfl
    · intro hsome
      simp only [snapshotRecord, jsOrOpt, jsOr]
      cases hc : snap.usd_24h_change with
      | none => simp [hc] at hsome
      | some change =>
        simp only [Option.map_some', Option.some.injEq]
        split_ifs with h0
        · rw [h0]; ring
        · ring
  · intro other hother
    rw [fetchAllCryptoData_priceData]
    exact pollLoop_get_unwritten clk.now other data s.priceData hother

theorem poll_record_defaults_witness :
    ([("bitcoin", some fullSnapshot)].map Prod.fst).Nodup
      ∧ (pollLoop (initialState 0).priceData (clockAt 1).now
          [("bitcoin", some fullSnapshot)]).2 = true
      ∧ ("bitcoin", some fullSnapshot) ∈ [("bitcoin", some fullSnapshot)]
      ∧ mapping "bitcoin" = some "BTC"
      ∧ (∃ r, getRecord (fetchAllCryptoData (initialState 0)
            (some [("bitcoin", some fullSnapshot)]) (clockAt 1)).priceData "BTC" = some r
          ∧ r.price = 100) :=
  ⟨by decide, by decide, by simp, by decide, by
    obtain ⟨r, hr, hprice, -⟩ := (poll_record_defaults (initialState 0)
      [("bitcoin", some fullSnapshot)] (clockAt 1) "bitcoin" "BTC" fullSnapshot
      (by decide) (by decide) (by simp) (by decide)).1
    exact ⟨r, hr, hprice⟩⟩

/-! ## Failed poll cycles -/

@[simp] theorem updatePriceDisplay_alerts (s : State) (previousPrice : Option ℚ) :
    (updatePriceDisplay s previousPrice).alerts = s.alerts := by
  unfold updatePriceDisplay
  split <;> rfl

@[simp] theorem updateTopMovers_alerts (s : State) : (updateTopMovers s).alerts = s.alerts := rfl

theorem fetchAllCryptoData_alerts (s : State)
    (response : Option (List (String × Option Snapshot))) (clk : Clock) :
    (fetchAllCryptoData s response clk).alerts = s.alerts := by
  unfold fetchAllCryptoData
  cases response with
  | none => rfl
  | some data =>
    dsimp only
    split_ifs <;> simp

/-- A loop that stops early stopped at a `null` entry with a mapped id, after
running through the entries before it. -/
theorem pollLoop_failed (now : Nat) (data : List (String × Option Snapshot)) :
    ∀ store : List (String × PriceRecord), (pollLoop store now data).2 = false →
      ∃ pre id symbol post, data = pre ++ (id, none) :: post ∧ mapping id = some symbol
        ∧ (pollLoop store now pre).2 = true
        ∧ (pollLoop store now data).1 = (pollLoop store now pre).1 := by
  induction data with
  | nil => intro store h; simp [pollLoop] at h
  | cons e rest ih =>
    intro store h
    obtain ⟨id0, entry0⟩ := e
    unfold pollLoop at h
    cases hmap0 : mapping id0 with
    | none =>
      simp only [hmap0] at h
      obtain ⟨pre, id, symbol, post, hdata, hmap, hpre, hstore⟩ := ih store h
      refine ⟨(id0, entry0) :: pre, id, symbol, post, by rw [hdata]; rfl, hmap, ?_, ?_⟩
      · unfold pollLoop
        simp only [hmap0]
        exact hpre
      · rw [pollLoop, pollLoop]
        simp only [hmap0]
        exact hstore
    | some sym0 =>
      cases entry0 with
      | none => exact ⟨[], id0, sym0, rest, rfl, hmap0, rfl, by simp [pollLoop, hmap0]⟩
      | some snap0 =>
        simp only [hmap0] at h
        obtain ⟨pre, id, symbol, post, hdata, hmap, hpre, hstore⟩ := ih _ h
        refine ⟨(id0, some snap0) :: pre, id, symbol, post, by rw [hdata]; rfl, hmap, ?_, ?_⟩
        · unfold pollLoop
          simp only [hmap0]
          exact hpre
        · rw [pollLoop, pollLoop]
          simp only [hmap0]
          exact hstore

/-- C13 as stated fails on the body `bitcoin: a snapshot, ethereum: null,
cardano: a snapshot`: the loop throws at `ethereum`, yet the BTC record written
before the throw stays in `state.priceData`. -/
theorem failed_batch_counterexample :
    (pollLoop (initialState 0).priceData (clockAt 1).now nullEntryBody).2 = false
      ∧ getRecord (initialState 0).priceData "BTC" = none
      ∧ getRecord (fetchAllCryptoData (initialState 0) (some nullEntryBody)
          (clockAt 1)).priceData "BTC" = some (snapshotRecord fullSnapshot 1)
      ∧ (fetchAllCryptoData (initialState 0) (some nullEntryBody) (clockAt 1)).priceData
          ≠ (initialState 0).priceData := by
  have hget : getRecord (fetchAllCryptoData (initialState 0) (some nullEntryBody)
      (clockAt 1)).priceData "BTC" = some (snapshotRecord fullSnapshot 1) := by
    rw [fetchAllCryptoData_priceData]
    simp [pollLoop, nullEntryBody, mapping, initialState, clockAt, setRecord, getRecord]
  refine ⟨by decide, rfl, hget, ?_⟩
  intro heq
  rw [heq] at hget
  simp [initialState, getRecord] at hget

/-- C13, amended: a poll cycle whose request fails or whose body cannot be parsed
leaves the state as it was; a cycle whose loop throws stopped at a `null` entry
with a mapped id, and it leaves in `state.priceData` exactly the writes of the
entries before that one (what a poll of those entries alone would store), with
no write for it or any later entry and no display refresh; no poll cycle adds
an alert. -/
theorem failed_batch_effect (s : State) (clk : Clock) (data : List (String × Option Snapshot))
    (hfail : (pollLoop s.priceData clk.now data).2 = false) :
    fetchAllCryptoData s none clk = s
      ∧ (∃ pre id symbol post, data = pre ++ (id, none) :: post ∧ mapping id = some symbol
          ∧ (pollLoop s.priceData clk.now pre).2 = true
          ∧ (fetchAllCryptoData s (some data) clk).priceData
              = (fetchAllCryptoData s (some pre) clk).priceData
          ∧ fetchAllCryptoData s (some data) clk
              = { s with priceData := (pollLoop s.priceData clk.now pre).1 })
      ∧ (fetchAllCryptoData s (some data) clk).view = s.view
      ∧ (fetchAllCryptoData s (some data) clk).alerts = s.alerts
      ∧ (∀ response, (fetchAllCryptoData s response clk).alerts = s.alerts) := by
  obtain ⟨pre, id, symbol, post, hdata, hmap, hpre, hstore⟩ :=
    pollLoop_failed clk.now data s.priceData hfail
  have hstate : fetchAllCryptoData s (some data) clk
      = { s with priceData := (pollLoop s.priceData clk.now pre).1 } := by
    simp only [fetchAllCryptoData, hfail, hstore]
    rfl
  refine ⟨rfl, ⟨pre, id, symbol, post, hdata, hmap, hpre, ?_, hstate⟩, ?_, ?_,
    fun response => fetchAllCryptoData_alerts s response clk⟩
  · rw [fetchAllCryptoData_priceData, fetchAllCryptoData_priceData, hstore]
  · rw [hstate]
  · rw [hstate]

theorem failed_batch_effect_witness :
    (pollLoop (initialState 0).priceData (clockAt 1).now nullEntryBody).2 = false
      ∧ (fetchAllCryptoData (initialState 0) (some nullEntryBody) (clockAt 1)).alerts
          = (initialState 0).alerts :=
  ⟨by decide,
    (failed_batch_effect (initialState 0) (clockAt 1) nullEntryBody (by decide)).2.2.2.1⟩

/-! ## Liveness counters -/

@[simp] theorem updatePriceDisplay_dataPointsCount (s : State) (previousPrice : Option ℚ) :
    (updatePriceDisplay s previousPrice).dataPointsCount = s.dataPointsCount := by
  unfold updatePriceDisplay
  split <;> rfl

@[simp] theorem updatePriceDisplay_lastUpdateTime (s : State) (previousPrice : Option ℚ) :
    (updatePriceDisplay s previousPrice).lastUpdateTime = s.lastUpdateTime := by
  unfold updatePriceDisplay
  split <;> rfl

@[simp] theorem detectAnomalies_dataPointsCount (s : State) (symbol : String) (clk : Clock) :
    (detectAnomalies s symbol clk).dataPointsCount = s.dataPointsCount := by
  unfold detectAnomalies
  split
  · rfl
  · dsimp only
    split_ifs <;> rfl

@[simp] theorem detectAnomalies_lastUpdateTime (s : State) (symbol : String) (clk : Clock) :
    (detectAnomalies s symbol clk).lastUpdateTime = s.lastUpdateTime := by
  unfold detectAnomalies
  split
  · rfl
  · dsimp only
    split_ifs <;> rfl

/-- The streaming adapter counts its write and stamps it. -/
theorem handleTickerUpdate_counts (s : State) (data : Ticker) (clk : Clock) :
    (handleTickerUpdate s data clk).dataPointsCount = s.dataPointsCount + 1
      ∧ (handleTickerUpdate s data clk).lastUpdateTime = clk.now := by
  simp only [handleTickerUpdate, detectAnomalies_dataPointsCount,
    detectAnomalies_lastUpdateTime]
  split_ifs <;> simp [updateTopMovers]

/-- The polling adapter touches neither the counter nor the time stamp. -/
theorem fetchAllCryptoData_counts (s : State)
    (response : Option (List (String × Option Snapshot))) (clk : Clock) :
    (fetchAllCryptoData s response clk).dataPointsCount = s.dataPointsCount
      ∧ (fetchAllCryptoData s response clk).lastUpdateTime = s.lastUpdateTime := by
  unfold fetchAllCryptoData
  cases response with
  | none => exact ⟨rfl, rfl⟩
  | some data =>
    dsimp only
    split_ifs <;> simp [updateTopMovers]

/-- The counter never decreases along a run. -/
theorem run_dataPointsCount_mono (events : List Event) :
    ∀ s : State, s.dataPointsCount ≤ (run s events).dataPointsCount := by
  induction events with
  | nil => intro s; exact le_refl _
  | cons e rest ih =>
    intro s
    have hstep : s.dataPointsCount ≤ (step s e).dataPointsCount := by
      cases e with
      | tick data clk =>
        simp only [step, (handleTickerUpdate_counts s data clk).1]
        omega
      | poll response clk => simp only [step, (fetchAllCryptoData_counts s response clk).1, le_refl]
      | select symbol name icon clk => simp [step, selectSymbol, addAlert]
      | alert message type clk => simp [step, addAlert]
    exact le_trans hstep (ih (step s e))

/-- C14 at a concrete poll: from the initial state (counter 0, stamped 0) a poll at
time 5 writes the BTC record, stamped 5, and leaves `dataPointsCount` at 0 and
`lastUpdateTime` at 0. -/
theorem poll_write_not_counted :
    getRecord (initialState 0).priceData "BTC" = none
      ∧ getRecord (fetchAllCryptoData (initialState 0) (some [("bitcoin", some fullSnapshot)])
          (clockAt 5)).priceData "BTC" = some (snapshotRecord fullSnapshot 5)
      ∧ (snapshotRecord fullSnapshot 5).lastUpdate = 5
      ∧ (fetchAllCryptoData (initialState 0) (some [("bitcoin", some fullSnapshot)])
          (clockAt 5)).dataPointsCount = 0
      ∧ (fetchAllCryptoData (initialState 0) (some [("bitcoin", some fullSnapshot)])
          (clockAt 5)).lastUpdateTime = 0 := by
  refine ⟨rfl, ?_, rfl, ?_, ?_⟩
  · rw [fetchAllCryptoData_priceData]
    exact pollLoop_get_written (clockAt 5).now "bitcoin" "BTC" fullSnapshot (by decide) _ _
      (by decide) (by decide) (by simp)
  · rw [(fetchAllCryptoData_counts _ _ _).1]
    rfl
  · rw [(fetchAllCryptoData_counts _ _ _).2]
    rfl

/-! ## Alerts from anomalies -/

/-- C15 as stated fails for an info anomaly on the selected symbol: with BTC
selected and a 24h change of 6 an info item is shown but the alert log is left
as it was. -/
theorem info_anomaly_counterexample :
    (stateWithChange 6).currentSymbol = "BTC"
      ∧ (detectAnomalies (stateWithChange 6) "BTC" (clockAt 1)).view.anomaly
          = some { kind := AnomalyKind.info, symbol := "BTC", change := 6 }
      ∧ (detectAnomalies (stateWithChange 6) "BTC" (clockAt 1)).alerts
          = (stateWithChange 6).alerts
      ∧ (stateWithChange 6).alerts = [] := by
  have hk : anomalyKind (recordWithChange 6).priceChangePercent24h = some AnomalyKind.info := by
    norm_num [anomalyKind, recordWithChange, abs_of_pos]
  have h := detectAnomalies_effect (stateWithChange 6) "BTC" (clockAt 1) (recordWithChange 6)
    (by decide)
  rw [hk] at h
  refine ⟨rfl, ?_, ?_, rfl⟩
  · rw [h.1]
    rfl
  · rw [h.2]
    simp

/-- C15, amended: when `detectAnomalies` classifies a warning and the symbol is
the selected one, exactly one alert (`High volatility detected for <symbol>`,
type warning) is put at the head of the log by `addAlert`; when the symbol is
not the selected one, or the class is info or none, the log is unchanged. -/
theorem anomaly_alert_logged (s : State) (symbol : String) (clk : Clock) (data : PriceRecord)
    (h : getRecord s.priceData symbol = some data) :
    (anomalyKind data.priceChangePercent24h = some AnomalyKind.warning →
        symbol = s.currentSymbol →
        (detectAnomalies s symbol clk).alerts
            = (addAlert s ("High volatility detected for " ++ symbol) "warning"
                clk.timeStr).alerts
          ∧ (detectAnomalies s symbol clk).alerts.head?
            = some { message := "High volatility detected for " ++ symbol, type := "warning",
                     time := clk.timeStr }
          ∧ (s.alerts.length < 10 → (detectAnomalies s symbol clk).alerts
            = { message := "High volatility detected for " ++ symbol, type := "warning",
                time := clk.timeStr } :: s.alerts))
      ∧ (symbol ≠ s.currentSymbol → (detectAnomalies s symbol clk).alerts = s.alerts)
      ∧ (anomalyKind data.priceChangePercent24h = some AnomalyKind.info →
          (detectAnomalies s symbol clk).alerts = s.alerts)
      ∧ (anomalyKind data.priceChangePercent24h = none →
          (detectAnomalies s symbol clk).alerts = s.alerts) := by
  have heff := (detectAnomalies_effect s symbol clk data h).2
  refine ⟨?_, ?_, ?_, ?_⟩
  · intro hk hsel
    rw [heff, if_pos ⟨hk, hsel⟩]
    refine ⟨rfl, ?_, ?_⟩
    · simp only [addAlert]
      split_ifs with hlen
      · cases hs : s.alerts with
        | nil => simp [hs] at hlen
        | cons a rest => simp [List.dropLast]
      · rfl
    · intro hlt
      simp only [addAlert]
      rw [if_neg (by simp; omega)]
  · intro hne
    rw [heff, if_neg (fun hc => hne hc.2)]
  · intro hk
    rw [heff, if_neg (fun hc => by rw [hk] at hc; exact absurd hc.1 (by simp))]
  · intro hk
    rw [heff, if_neg (fun hc => by rw [hk] at hc; exact absurd hc.1 (by simp))]

theorem anomaly_alert_logged_witness :
    getRecord (stateWithChange 11).priceData "BTC" = some (recordWithChange 11)
      ∧ (detectAnomalies (stateWithChange 11) "BTC" (clockAt 1)).alerts
          = [{ message := "High volatility detected for BTC", type := "warning",
               time := "00:00" }] := by
  refine ⟨by decide, ?_⟩
  have hk : anomalyKind (recordWithChange 11).priceChangePercent24h
      = some AnomalyKind.warning := by
    norm_num [anomalyKind, recordWithChange, abs_of_pos]
  rw [((anomaly_alert_logged (stateWithChange 11) "BTC" (clockAt 1) (recordWithChange 11)
    (by decide)).1 hk rfl).2.2 (by decide)]
  rfl

/-! ## Volatility, bid/ask and risk -/

/-- With a nonzero 24h range the written volatility is the documented formula. -/
theorem volatility24h_of_ne (data : PriceRecord) (h : data.high24h ≠ data.low24h) :
    (updateVolatilityMetrics data).volatility24h
      = (data.high24h - data.low24h) / avgPrice data * 100 := by
  simp only [updateVolatilityMetrics, volatility24h, priceRange, jsOr]
  rw [if_neg (sub_ne_zero.2 h)]

/-- The 1h and 4h figures are the 24h one divided by 24 and by 6. -/
theorem volatility_1h_4h (data : PriceRecord) :
    (updateVolatilityMetrics data).vol1h = (updateVolatilityMetrics data).volatility24h / 24
      ∧ (updateVolatilityMetrics data).vol4h
          = (updateVolatilityMetrics data).volatility24h / 6 :=
  ⟨rfl, rfl⟩

/-- C16 at a record with an empty range (high = low = price = 100): the written
24h volatility is 1, where `(high - low) / avgPrice * 100` is 0, because the
`|| 1` of `priceRange` replaces the zero numerator; on high 51000, low 49000 the
written value is 4. -/
theorem flat_range_volatility :
    (updateVolatilityMetrics flatRecord).volatility24h = 1
      ∧ avgPrice flatRecord = 100
      ∧ (flatRecord.high24h - flatRecord.low24h) / avgPrice flatRecord * 100 = 0
      ∧ (updateVolatilityMetrics (tickerRecord (btcTick 50000) 0)).volatility24h = 4 := by
  refine ⟨?_, ?_, ?_, ?_⟩
  · norm_num [updateVolatilityMetrics, volatility24h, priceRange, avgPrice, jsOr, flatRecord]
  · norm_num [avgPrice, jsOr, flatRecord]
  · norm_num [flatRecord]
  · norm_num [updateVolatilityMetrics, volatility24h, priceRange, avgPrice, jsOr, tickerRecord,
      btcTick]

/-- C17 as stated fails on a price above the range (price 120, range [90, 110]):
the bid/ask value written is 150, not limited to 100; only the bar width is. -/
theorem bidAsk_counterexample :
    (updateMarketMicrostructure aboveRangeRecord).bidAsk = 150
      ∧ ¬ ((updateMarketMicrostructure aboveRangeRecord).bidAsk ≤ 100)
      ∧ (updateMarketMicrostructure aboveRangeRecord).bidAskBarWidth = 100 := by
  have h : (updateMarketMicrostructure aboveRangeRecord).bidAsk = 150 := by
    norm_num [updateMarketMicrostructure, bidAsk, pricePosition, priceRange, jsOr,
      aboveRangeRecord]
  refine ⟨h, by rw [h]; norm_num, ?_⟩
  have hb : (updateMarketMicrostructure aboveRangeRecord).bidAskBarWidth
      = max 0 (min (updateMarketMicrostructure aboveRangeRecord).bidAsk 100) := rfl
  rw [hb, h]
  norm_num

/-- C17, amended: the bid/ask value written as text is
`(price - low24h) / (high24h - low24h or 1) * 100`, not limited; the width of its
bar is that value limited to [0, 100]. -/
theorem bidAsk_bar_clamped (data : PriceRecord) :
    (updateMarketMicrostructure data).bidAsk
        = (data.price - data.low24h)
          / (if data.high24h - data.low24h = 0 then 1 else data.high24h - data.low24h) * 100
      ∧ (updateMarketMicrostructure data).bidAskBarWidth
          = max 0 (min (updateMarketMicrostructure data).bidAsk 100)
      ∧ 0 ≤ (updateMarketMicrostructure data).bidAskBarWidth
      ∧ (updateMarketMicrostructure data).bidAskBarWidth ≤ 100 := by
  refine ⟨rfl, rfl, le_max_left _ _, ?_⟩
  exact max_le (by norm_num) (min_le_right _ _)

/-- C18 as stated fails on high 103, low 100, price 100: the value compared with
the thresholds is 3, so the level is Medium, while the 24h volatility written
for the same record is 600/203, below 3. -/
theorem risk_volatility_counterexample :
    riskVolatility atLowRecord = 3
      ∧ (updateRiskIndicators atLowRecord).riskLevel = Level.Medium
      ∧ (updateVolatilityMetrics atLowRecord).volatility24h = 600 / 203
      ∧ (updateVolatilityMetrics atLowRecord).volatility24h < 3
      ∧ riskVolatility atLowRecord ≠ (updateVolatilityMetrics atLowRecord).volatility24h := by
  have hr : riskVolatility atLowRecord = 3 := by
    norm_num [riskVolatility, riskDenominator, jsOr, atLowRecord]
  have hv : (updateVolatilityMetrics atLowRecord).volatility24h = 600 / 203 := by
    norm_num [updateVolatilityMetrics, volatility24h, priceRange, avgPrice, jsOr, atLowRecord]
  refine ⟨hr, ?_, hv, ?_, ?_⟩
  · simp only [updateRiskIndicators, hr]
    norm_num [classifyRisk]
  · rw [hv]; norm_num
  · rw [hr, hv]; norm_num

/-- C18, amended: the risk level is classified from
`(high24h - low24h) / (price or 1) * 100`: Low iff that value is below 3, Medium
iff it is in [3, 7), High iff it is at least 7; that value is the written 24h
volatility when the price is the midpoint of a nonempty range and is not 0. -/
theorem risk_level_from_price_volatility (data : PriceRecord) :
    riskVolatility data
        = (data.high24h - data.low24h) / (if data.price = 0 then 1 else data.price) * 100
      ∧ ((updateRiskIndicators data).riskLevel = Level.Low ↔ riskVolatility data < 3)
      ∧ ((updateRiskIndicators data).riskLevel = Level.Medium
          ↔ 3 ≤ riskVolatility data ∧ riskVolatility data < 7)
      ∧ ((updateRiskIndicators data).riskLevel = Level.High ↔ 7 ≤ riskVolatility data)
      ∧ (data.price = (data.high24h + data.low24h) / 2 → data.price ≠ 0 →
          data.high24h ≠ data.low24h →
          riskVolatility data = (updateVolatilityMetrics data).volatility24h) := by
  have hcls : ∀ v : ℚ, ((classifyRisk v).1 = Level.Low ↔ v < 3)
      ∧ ((classifyRisk v).1 = Level.Medium ↔ 3 ≤ v ∧ v < 7)
      ∧ ((classifyRisk v).1 = Level.High ↔ 7 ≤ v) := by
    intro v
    unfold classifyRisk
    split_ifs with h1 h2
    · refine ⟨by simp [h1], by simp [not_le.2 h1], ?_⟩
      simp only [reduceCtorEq, false_iff, not_le]
      linarith
    · exact ⟨by simp [h1], by simp [h2, not_lt.1 h1], by simp [h2]⟩
    · exact ⟨by simp [h1], by simp [h2], by simp [not_lt.1 h2]⟩
  refine ⟨rfl, (hcls _).1, (hcls _).2.1, (hcls _).2.2, ?_⟩
  intro hmid hp hne
  rw [volatility24h_of_ne data hne]
  simp only [riskVolatility, riskDenominator, avgPrice, jsOr]
  rw [← hmid, if_neg hp, if_neg hp, if_neg hp]

theorem risk_level_from_price_volatility_witness :
    midpointRecord.price = (midpointRecord.high24h + midpointRecord.low24h) / 2
      ∧ midpointRecord.price ≠ 0
      ∧ midpointRecord.high24h ≠ midpointRecord.low24h
      ∧ riskVolatility midpointRecord = (updateVolatilityMetrics midpointRecord).volatility24h :=
  ⟨by norm_num [midpointRecord], by norm_num [midpointRecord], by norm_num [midpointRecord],
    (risk_level_from_price_volatility midpointRecord).2.2.2.2 (by norm_num [midpointRecord])
      (by norm_num [midpointRecord]) (by norm_num [midpointRecord])⟩

/-- C19: a polled asset with price `p > 0` and no supplied 24h high and low gets
a record whose OFI is 0, whose bid/ask value (and bar) is 50, whose 24h
volatility is 10 and whose risk level is High with score 75, whatever `p` is. -/
theorem fallback_record_metrics (snap : Snapshot) (now : Nat) (hp : 0 < snap.usd)
    (hhigh : snap.usd_24h_high = none) (hlow : snap.usd_24h_low = none) :
    (snapshotRecord snap now).high24h = snap.usd * (105 / 100)
      ∧ (snapshotRecord snap now).low24h = snap.usd * (95 / 100)
      ∧ (updateMarketMicrostructure (snapshotRecord snap now)).ofi = 0
      ∧ (updateMarketMicrostructure (snapshotRecord snap now)).bidAsk = 50
      ∧ (updateMarketMicrostructure (snapshotRecord snap now)).bidAskBarWidth = 50
      ∧ (updateVolatilityMetrics (snapshotRecord snap now)).volatility24h = 10
      ∧ riskVolatility (snapshotRecord snap now) = 10
      ∧ (updateRiskIndicators (snapshotRecord snap now)).riskLevel = Level.High
      ∧ (updateRiskIndicators (snapshotRecord snap now)).riskScore = 75 := by
  have hne : snap.usd ≠ 0 := ne_of_gt hp
  have hhi : (snapshotRecord snap now).high24h = snap.usd * (105 / 100) := by
    simp [snapshotRecord, hhigh, jsOrOpt]
  have hlo : (snapshotRecord snap now).low24h = snap.usd * (95 / 100) := by
    simp [snapshotRecord, hlow, jsOrOpt]
  have hpr : (snapshotRecord snap now).price = snap.usd := rfl
  have hrange : priceRange (snapshotRecord snap now) = snap.usd * (10 / 100) := by
    simp only [priceRange, jsOr, hhi, hlo]
    rw [if_neg]
    · ring
    · intro h0
      apply hne
      linarith
  have hpos : pricePosition (snapshotRecord snap now) = 1 / 2 := by
    simp only [pricePosition, hrange, hlo, hpr]
    field_simp
    ring
  have havg : avgPrice (snapshotRecord snap now) = snap.usd := by
    have hmid : (snap.usd * (105 / 100) + snap.usd * (95 / 100)) / 2 = snap.usd := by ring
    simp only [avgPrice, jsOr, hhi, hlo, hmid]
    rw [if_neg hne, if_neg hne]
  have hvol : volatility24h (snapshotRecord snap now) = 10 := by
    simp only [volatility24h, hrange, havg]
    field_simp
    ring
  have hrisk : riskVolatility (snapshotRecord snap now) = 10 := by
    simp only [riskVolatility, riskDenominator, jsOr, hhi, hlo, hpr]
    rw [if_neg hne]
    field_simp
    ring
  have hofi : (updateMarketMicrostructure (snapshotRecord snap now)).ofi = 0 := by
    simp only [updateMarketMicrostructure, ofi, hpos]
    norm_num
  have hba : (updateMarketMicrostructure (snapshotRecord snap now)).bidAsk = 50 := by
    simp only [updateMarketMicrostructure, bidAsk, hpos]
    norm_num
  refine ⟨hhi, hlo, hofi, hba, ?_, hvol, hrisk, ?_, ?_⟩
  · have hb : (updateMarketMicrostructure (snapshotRecord snap now)).bidAskBarWidth
        = max 0 (min (updateMarketMicrostructure (snapshotRecord snap now)).bidAsk 100) := rfl
    rw [hb, hba]
    norm_num
  · simp only [updateRiskIndicators, hrisk]
    norm_num [classifyRisk]
  · simp only [updateRiskIndicators, hrisk]
    norm_num [classifyRisk]

theorem fallback_record_metrics_witness :
    0 < (bareSnapshot 250).usd
      ∧ (bareSnapshot 250).usd_24h_high = none
      ∧ (bareSnapshot 250).usd_24h_low = none
      ∧ (updateVolatilityMetrics (snapshotRecord (bareSnapshot 250) 7)).volatility24h = 10
      ∧ (updateRiskIndicators (snapshotRecord (bareSnapshot 250) 7)).riskLevel = Level.High :=
  ⟨by norm_num [bareSnapshot], rfl, rfl,
    (fallback_record_metrics (bareSnapshot 250) 7 (by norm_num [bareSnapshot]) rfl rfl).2.2.2.2.2.1,
    (fallback_record_metrics (bareSnapshot 250) 7 (by norm_num [bareSnapshot]) rfl
      rfl).2.2.2.2.2.2.2.1⟩

end CryptoView
